import Mathlib

/-! HTTP probe request synthesis (`probes/http/request.go`).

A shallow embedding of the request builder of the HTTP probe and the
properties of it that the specification states.

Modelling conventions:

* Go strings are Lean `String`s.  `strings.IndexByte` is modelled on the
  character list, counting UTF-8 byte offsets; the byte `0x3A` occurs in a
  UTF-8 string exactly where the character `:` occurs.
* Go `int`/`int32` ports are `Int` (no arithmetic is performed on them).
* A Go `map[string]string` is an association list read with `mapIndex`
  (a missing key reads as the empty string, as in Go).
* Calls that leave the builder (resolver, label mutators, logger,
  `http.NewRequest`) are recorded, in order, in a list of `Event`s.
* What the Go standard library decides (`net.IP.String`, which method/URL
  pairs `http.NewRequest` rejects) is a parameter, `Stdlib`.
-/

namespace Cloudprober

/-! ## Data model -/

/-- One byte of a Go `[]byte`. -/
abbrev Byte := Fin 256

/-- Go `net.IP`: a byte slice. -/
abbrev IP := List Byte

/-- Go map index expression `m[k]` on a `map[string]string`: the stored
value, or the empty string when the key is absent. -/
def mapIndex (m : List (String × String)) (k : String) : String :=
  match m.lookup k with
  | some v => v
  | none => ""

/-- The fields of `endpoint.Endpoint` that the builder reads.  `IP` is `none`
for a nil `net.IP`. -/
structure Endpoint where
  Name : String
  Labels : List (String × String)
  Port : Int
  IP : Option IP
  deriving DecidableEq, Repr

/-- Modelled from the spec: the resolution capability bound to a target,
`resolve(ipVersion, targetSetContext) → address | error` (the body of
`endpoint.Endpoint.Resolve` and the resolver behind `p.opts.Targets`). -/
structure Targets where
  resolve : Endpoint → Int → Except String IP

/-- The call `target.Resolve(ipVersion, targets)`. -/
def Endpoint.Resolve (target : Endpoint) (ipVersion : Int) (targets : Targets) :
    Except String Cloudprober.IP :=
  targets.resolve target ipVersion

/-- Modelled from the spec: a label-mutator callback
`(target, resolvedAddressOrEmpty, port) → void` acting on the target's label
store (`AdditionalLabel.UpdateForTarget`).  The function returns the contents
of the target's label map after the call; the map is shared by reference, so
everything computed from the target afterwards reads the returned labels. -/
structure AdditionalLabel where
  UpdateForTarget : Endpoint → String → Int → List (String × String)

/-- The fields of the probe options (`p.opts`) that the builder reads. -/
structure Options where
  IPVersion : Int
  Targets : Targets
  AdditionalLabels : List AdditionalLabel

/-- One configured header, `ProbeConf_Header`. -/
structure ProbeConf_Header where
  Name : String
  Value : String
  deriving DecidableEq, Repr

def ProbeConf_Header.GetName (h : ProbeConf_Header) : String := h.Name

def ProbeConf_Header.GetValue (h : ProbeConf_Header) : String := h.Value

/-- The fields of the probe configuration (`p.c`) that the builder reads.
`Port` and `ResolveFirst` are optional fields (`none` = not set). -/
structure ProbeConf where
  Port : Option Int
  ResolveFirst : Option Bool
  Headers : List ProbeConf_Header

/-- Generated getter: the port, or 0 when it is not set. -/
def ProbeConf.GetPort (c : ProbeConf) : Int :=
  match c.Port with
  | some v => v
  | none => 0

/-- Generated getter: the flag, or false when it is not set. -/
def ProbeConf.GetResolveFirst (c : ProbeConf) : Bool :=
  match c.ResolveFirst with
  | some b => b
  | none => false

def ProbeConf.GetHeaders (c : ProbeConf) : List ProbeConf_Header := c.Headers

/-- The fields of `Probe` that the builder reads. -/
structure Probe where
  c : ProbeConf
  opts : Options
  protocol : String
  method : String
  url : String
  requestBody : List Byte

/-! ## The request body reader -/

/-- The type `requestBody`: the body bytes. -/
structure requestBody where
  b : List Byte
  deriving DecidableEq, Repr

/-- Go errors that `Read` can return. -/
inductive error where
  | EOF
  deriving DecidableEq, Repr

/-- Go builtin `copy(dst, src)`: element by element while both slices have
elements left.  Returns the destination after the copy and the number of
elements copied. -/
def copy : List Byte → List Byte → List Byte × Nat
  | _ :: ds, s :: ss => ((s :: (copy ds ss).1), (copy ds ss).2 + 1)
  | ds, [] => (ds, 0)
  | [], _ :: _ => ([], 0)

/-- What one call of `Read` leaves behind and returns. -/
structure ReadResult where
  rb : requestBody
  p : List Byte
  n : Nat
  err : error
  deriving DecidableEq, Repr

/-- The method `requestBody.Read`: `return copy(p, rb.b), io.EOF`.  The
receiver is returned as well, as the state after the call. -/
def requestBody.Read (rb : requestBody) (p : List Byte) : ReadResult :=
  { rb := rb, p := (copy p rb.b).1, n := (copy p rb.b).2, err := error.EOF }

/-! ## Strings -/

/-- Decimal form of an integer, as `%d` prints it. -/
def itoa : Int → String
  | Int.ofNat n => Nat.repr n
  | Int.negSucc n => "-" ++ Nat.repr (n + 1)

def IndexByteFrom (c : Char) : List Char → Nat → Int
  | [], _ => -1
  | x :: xs, off => if x = c then (off : Int) else IndexByteFrom c xs (off + x.utf8Size)

/-- Go `strings.IndexByte(s, c)` for an ASCII `c`: the byte offset of the
first occurrence of `c` in `s`, or -1. -/
def IndexByte (s : String) (c : Char) : Int :=
  IndexByteFrom c s.data 0

/-! ## Host, URL host and path selection -/

def hostWithPort (host : String) (port : Int) : String :=
  if port = 0 then host
  else host ++ ":" ++ itoa port

def hostHeaderForTarget (target : Endpoint) (probeHostHeader : String) (port : Int) : String :=
  if probeHostHeader ≠ "" then probeHostHeader
  else if mapIndex target.Labels "fqdn" ≠ "" then
    hostWithPort (mapIndex target.Labels "fqdn") port
  else hostWithPort target.Name port

def urlHostForTarget (target : Endpoint) : String :=
  if mapIndex target.Labels "fqdn" ≠ "" then mapIndex target.Labels "fqdn"
  else target.Name

def relURLLabel : String := "relative_url"

def relURLForTarget (target : Endpoint) (probeURL : String) : String :=
  if probeURL ≠ "" then probeURL
  else if mapIndex target.Labels relURLLabel ≠ "" then mapIndex target.Labels relURLLabel
  else ""

/-! ## Requests -/

/-- Go `textproto.validHeaderFieldByte`: the token characters of RFC 7230. -/
def validHeaderFieldByte (c : Char) : Bool :=
  c.isAlphanum ||
    [33, 35, 36, 37, 38, 39, 42, 43, 45, 46, 94, 95, 96, 124, 126].contains c.toNat

/-- The canonicalising loop of `textproto.canonicalMIMEHeaderKey`: upper case
for the first letter and for a letter after a dash, lower case elsewhere. -/
def canonicalLoop : Bool → List Char → List Char
  | _, [] => []
  | upper, c :: cs =>
    let c1 :=
      if upper && c.isLower then c.toUpper
      else if !upper && c.isUpper then c.toLower
      else c
    c1 :: canonicalLoop (c1 = '-') cs

/-- Go `textproto.CanonicalMIMEHeaderKey`: a key with a byte that is not a
token character is returned unchanged; any other key is canonicalised. -/
def CanonicalMIMEHeaderKey (s : String) : String :=
  if s.data.all validHeaderFieldByte then String.mk (canonicalLoop true s.data)
  else s

/-- Go `http.Header`, a `map[string][]string`, as an association list with
at most one entry per key. -/
structure Header where
  entries : List (String × List String)
  deriving DecidableEq, Repr

/-- Go `http.Header.Set(key, value)`: the entry under the canonical form of
`key` is replaced by the single value `value`. -/
def Header.Set (h : Header) (key value : String) : Header :=
  { entries :=
      (CanonicalMIMEHeaderKey key, [value]) ::
        h.entries.filter (fun e => e.1 ≠ CanonicalMIMEHeaderKey key) }

/-- Go map index `h[key]` on an `http.Header`: `none` when the key is absent. -/
def Header.index (h : Header) (key : String) : Option (List String) :=
  h.entries.lookup key

/-- The fields of `http.Request` that the builder sets.  `Body` is `none` for
a nil body. -/
structure Request where
  Method : String
  URL : String
  Header : Header
  Host : String
  ContentLength : Int
  Body : Option requestBody
  deriving DecidableEq, Repr

/-- What the builder takes from the Go standard library.
`ipString` is `net.IP.String`; `requestError method url` is the error with
which `http.NewRequest` rejects the method or the URL (`none` when it accepts
both); `urlHost url` is the host of the parsed URL. -/
structure Stdlib where
  ipString : IP → String
  requestError : String → String → Option String
  urlHost : String → String

/-- Go `http.NewRequest(method, url, body)` for a body that is nil or a
`*requestBody`: an error when the method or the URL is rejected, otherwise a
request with an empty header map, the host of the URL, the body attached and
content length 0.  An empty method means "GET". -/
def NewRequest (lib : Stdlib) (method url : String) (body : Option requestBody) :
    Except String Request :=
  match lib.requestError method url with
  | some err => Except.error err
  | none =>
    Except.ok
      { Method := if method = "" then "GET" else method
        URL := url
        Header := { entries := [] }
        Host := lib.urlHost url
        ContentLength := 0
        Body := body }

/-! ## The builder -/

/-- A call that leaves the builder, with its arguments. -/
inductive Event where
  | Resolve (target : Endpoint) (ipVersion : Int)
  | Error (args : List String)
  | UpdateForTarget (index : Nat) (target : Endpoint) (ipForLabel : String) (port : Int)
  | NewRequest (method url : String) (body : Option requestBody)
  deriving DecidableEq, Repr

/-- What one call of `httpRequestForTarget` returns and leaves behind:
the request (`none` for the nil return), the contents of the target's label
map after the call, and the calls made, in order. -/
structure Outcome where
  req : Option Request
  Labels : List (String × String)
  events : List Event

/-- The loop `for _, al := range p.opts.AdditionalLabels`, from the mutator
at position `index` on: each mutator is called with the target as the
mutators before it left it.  Returns the target after the loop and the calls
made. -/
def updateLoop : List AdditionalLabel → Nat → Endpoint → String → Int → Endpoint × List Event
  | [], _, target, _, _ => (target, [])
  | al :: als, index, target, ipForLabel, port =>
    let target1 := { target with Labels := al.UpdateForTarget target ipForLabel port }
    let rest := updateLoop als (index + 1) target1 ipForLabel port
    (rest.1, Event.UpdateForTarget index target ipForLabel port :: rest.2)

/-- The loop `for _, header := range p.c.GetHeaders()`: a header named "Host"
sets `probeHostHeader`, any other header is set on the request. -/
def headerLoop : List ProbeConf_Header → String → Header → String × Header
  | [], probeHostHeader, hdr => (probeHostHeader, hdr)
  | header :: rest, probeHostHeader, hdr =>
    if header.GetName = "Host" then headerLoop rest header.GetValue hdr
    else headerLoop rest probeHostHeader (hdr.Set header.GetName header.GetValue)

/-- The part of `httpRequestForTarget` after the resolution block: label
mutators, IPv6 brackets, URL, body, request construction, headers and Host.
`before` are the calls made so far. -/
def buildRequest (lib : Stdlib) (p : Probe) (target : Endpoint) (port : Int)
    (urlHost ipForLabel : String) (before : List Event) : Outcome :=
  let updated := updateLoop p.opts.AdditionalLabels 0 target ipForLabel port
  let target := updated.1
  let urlHost := if IndexByte urlHost ':' ≥ 0 then "[" ++ urlHost ++ "]" else urlHost
  let url := p.protocol ++ "://" ++ hostWithPort urlHost port ++ relURLForTarget target p.url
  let body : Option requestBody :=
    if p.requestBody.length > 0 then some { b := p.requestBody } else none
  let called := before ++ updated.2 ++ [Event.NewRequest p.method url body]
  match NewRequest lib p.method url body with
  | Except.error err =>
    { req := none
      Labels := target.Labels
      events := called ++
        [Event.Error ["target: ", target.Name, ", error creating HTTP request: ", err]] }
  | Except.ok req =>
    let req := { req with ContentLength := (p.requestBody.length : Int) }
    let looped := headerLoop p.c.GetHeaders "" req.Header
    let req := { req with Header := looped.2 }
    let req := { req with Host := hostHeaderForTarget target looped.1 port }
    { req := some req, Labels := target.Labels, events := called }

/-- The port of `httpRequestForTarget` (its first block): the configured
port, or the target's port when the configured port is 0. -/
def effectivePort (p : Probe) (target : Endpoint) : Int :=
  let port := p.c.GetPort
  if port = 0 then target.Port else port

/-- The flag `resolveFirst` of `httpRequestForTarget`: the configured value
when the field is set, otherwise whether the target has an IP. -/
def resolveFirst (p : Probe) (target : Endpoint) : Bool :=
  match p.c.ResolveFirst with
  | some _ => p.c.GetResolveFirst
  | none => target.IP.isSome

/-- The method `Probe.httpRequestForTarget`. -/
def httpRequestForTarget (lib : Stdlib) (p : Probe) (target : Endpoint) : Outcome :=
  let port := effectivePort p target
  let urlHost := urlHostForTarget target
  let ipForLabel := ""
  if resolveFirst p target then
    match target.Resolve p.opts.IPVersion p.opts.Targets with
    | Except.error err =>
      { req := none
        Labels := target.Labels
        events :=
          [Event.Resolve target p.opts.IPVersion,
           Event.Error ["target: ", target.Name, ", resolve error: ", err]] }
    | Except.ok ip =>
      let ipStr := lib.ipString ip
      buildRequest lib p target port ipStr ipStr [Event.Resolve target p.opts.IPVersion]
  else
    buildRequest lib p target port urlHost ipForLabel []

/-! ## Observations on the calls made -/

/-- The URL of a call of `http.NewRequest`. -/
def Event.requestURL : Event → Option String
  | Event.NewRequest _ url _ => some url
  | _ => none

/-- The arguments of a call of the resolver. -/
def Event.resolveArgs : Event → Option (Endpoint × Int)
  | Event.Resolve target ipVersion => some (target, ipVersion)
  | _ => none

/-- The position and the arguments of a call of a label mutator. -/
def Event.updateArgs : Event → Option (Nat × Endpoint × String × Int)
  | Event.UpdateForTarget index target ipForLabel port => some (index, target, ipForLabel, port)
  | _ => none

/-- The URLs handed to request construction, in order. -/
def requestedURLs (events : List Event) : List String :=
  events.filterMap Event.requestURL

/-- The calls of the resolver, in order. -/
def resolveCalls (events : List Event) : List (Endpoint × Int) :=
  events.filterMap Event.resolveArgs

/-- The calls of label mutators, in order. -/
def mutatorCalls (events : List Event) : List (Nat × Endpoint × String × Int) :=
  events.filterMap Event.updateArgs

/-- The value of the last configured header named "Host", if there is one. -/
def lastHostValue (headers : List ProbeConf_Header) : Option String :=
  (headers.filter (fun h => h.Name = "Host")).getLast?.map (fun h => h.Value)

/-- The host string with square brackets around it when it contains a colon. -/
def bracketed (host : String) : String :=
  if ':' ∈ host.data then "[" ++ host ++ "]" else host

/-- The value of the last configured header, among those not named "Host",
whose name has the canonical form `key`. -/
def lastValueUnder (headers : List ProbeConf_Header) (key : String) : Option String :=
  (headers.filter
      (fun h => h.Name ≠ "Host" ∧ CanonicalMIMEHeaderKey h.Name = key)).getLast?.map
    (fun h => h.Value)

/-! ## Example inputs -/

/-- The address `::1` as a 16-byte `net.IP`. -/
def exampleLoopback : IP := [0, 0, 0, 0, 0, 0, 0, 0, 0, 0, 0, 0, 0, 0, 0, 1]

/-- A standard library for the examples.  It agrees with Go on what the
examples use: `::1` prints as "::1" (and a nil address as "<nil>"), and the
method "GET" with the example URLs is accepted.  The parsed host is not
observed, the builder overwrites it. -/
def exampleStdlib : Stdlib :=
  { ipString := fun ip => if ip = exampleLoopback then "::1" else "<nil>"
    requestError := fun _ _ => none
    urlHost := fun _ => "" }

/-- A resolver for the examples: a target with an address resolves to it,
a target without one fails to resolve. -/
def exampleTargets : Targets :=
  { resolve := fun target _ =>
      match target.IP with
      | some ip => Except.ok ip
      | none => Except.error "no address" }

/-- A label mutator for the examples: it stores the resolved address under
the label "dst_ip". -/
def exampleLabel : AdditionalLabel :=
  { UpdateForTarget := fun target ipForLabel _ => ("dst_ip", ipForLabel) :: target.Labels }

/-- A probe for the examples: protocol "http", method "GET", one label
mutator, no body, and the given port, resolve-first setting and headers. -/
def exampleProbe (port : Option Int) (rf : Option Bool) (headers : List ProbeConf_Header) :
    Probe :=
  { c := { Port := port, ResolveFirst := rf, Headers := headers }
    opts := { IPVersion := 0, Targets := exampleTargets, AdditionalLabels := [exampleLabel] }
    protocol := "http"
    method := "GET"
    url := ""
    requestBody := [] }

/-- The target named "b" with the pre-resolved address `::1`. -/
def exampleTargetB : Endpoint :=
  { Name := "b", Labels := [], Port := 0, IP := some exampleLoopback }

/-- The target named "a" with no address, no labels and no port. -/
def exampleTargetA : Endpoint :=
  { Name := "a", Labels := [], Port := 0, IP := none }

/-- The target named "a.com" with an fqdn label, a path label and port 8080. -/
def exampleTargetFqdn : Endpoint :=
  { Name := "a.com"
    Labels := [("fqdn", "a.example.com"), ("relative_url", "/health")]
    Port := 8080
    IP := none }

/-- A label mutator for the examples that leaves the labels as they are. -/
def exampleReadOnlyLabel : AdditionalLabel :=
  { UpdateForTarget := fun target _ _ => target.Labels }

/-- A label mutator for the examples that sets the fqdn label. -/
def exampleFqdnLabel : AdditionalLabel :=
  { UpdateForTarget := fun target _ _ => ("fqdn", "x.example") :: target.Labels }

/-- A probe for the examples with the given label mutators and body:
protocol "http", method "GET", and the given port, resolve-first setting and
headers. -/
def exampleProbeWith (als : List AdditionalLabel) (body : List Byte) (port : Option Int)
    (rf : Option Bool) (headers : List ProbeConf_Header) : Probe :=
  { c := { Port := port, ResolveFirst := rf, Headers := headers }
    opts := { IPVersion := 0, Targets := exampleTargets, AdditionalLabels := als }
    protocol := "http"
    method := "GET"
    url := ""
    requestBody := body }

/-- The target of the specification's example: name "a.com", fqdn label
"a.example.com", port 0, no address. -/
def specTarget : Endpoint :=
  { Name := "a.com", Labels := [("fqdn", "a.example.com")], Port := 0, IP := none }

/-- The configuration of the specification's example: protocol "https",
port 8443, no path override, resolve-first not set; options, method, headers
and body are as given. -/
def specProbe (opts : Options) (method : String) (headers : List ProbeConf_Header)
    (body : List Byte) : Probe :=
  { c := { Port := some 8443, ResolveFirst := none, Headers := headers }
    opts := opts
    protocol := "https"
    method := method
    url := ""
    requestBody := body }

/-- The address `::2` as a 16-byte `net.IP`. -/
def exampleLoopback2 : IP := [0, 0, 0, 0, 0, 0, 0, 0, 0, 0, 0, 0, 0, 0, 0, 2]

/-- A standard library for the examples with two addresses.  It agrees with
Go on what the examples use: `::1` prints as "::1", `::2` as "::2" (and a nil
address as "<nil>"), and the method "GET" with the example URLs is accepted. -/
def exampleStdlibV6 : Stdlib :=
  { ipString := fun ip =>
      if ip = exampleLoopback then "::1"
      else if ip = exampleLoopback2 then "::2"
      else "<nil>"
    requestError := fun _ _ => none
    urlHost := fun _ => "" }

/-- A resolver for the examples that resolves every target to `ip`. -/
def exampleResolver (ip : IP) : Targets :=
  { resolve := fun _ _ => Except.ok ip }

/-- A label mutator for the examples that stores the resolved address under
the label "fqdn". -/
def exampleAddressLabel : AdditionalLabel :=
  { UpdateForTarget := fun target ipForLabel _ => ("fqdn", ipForLabel) :: target.Labels }

/-- A probe for the examples with resolve-first set, a resolver that
resolves to `ip`, and the given label mutators: protocol "http", method
"GET", no port, no headers, no body. -/
def exampleProbeResolving (ip : IP) (als : List AdditionalLabel) : Probe :=
  { c := { Port := none, ResolveFirst := some true, Headers := [] }
    opts := { IPVersion := 0, Targets := exampleResolver ip, AdditionalLabels := als }
    protocol := "http"
    method := "GET"
    url := ""
    requestBody := [] }

/-- The target named "b" with no labels, no port and no address of its own. -/
def exampleTargetBare : Endpoint :=
  { Name := "b", Labels := [], Port := 0, IP := none }

/-! ## Auxiliary lemmas -/

theorem IndexByteFrom_nonneg_iff (c : Char) (l : List Char) (off : Nat) :
    0 ≤ IndexByteFrom c l off ↔ c ∈ l := by
  induction l generalizing off with
  | nil => simp [IndexByteFrom]
  | cons x xs ih =>
    by_cases hx : x = c
    · simp [IndexByteFrom, hx]
    · have hne : ¬ c = x := fun h => hx h.symm
      simp [IndexByteFrom, hx, hne, ih]

theorem IndexByte_nonneg_iff (s : String) (c : Char) :
    IndexByte s c ≥ 0 ↔ c ∈ s.data := by
  unfold IndexByte
  exact IndexByteFrom_nonneg_iff c s.data 0

theorem copy_snd (p b : List Byte) : (copy p b).2 = min p.length b.length := by
  induction p generalizing b with
  | nil => cases b <;> simp [copy]
  | cons d ds ih =>
    cases b with
    | nil => simp [copy]
    | cons s ss => simp [copy, ih, Nat.succ_min_succ]

theorem copy_fst (p b : List Byte) :
    (copy p b).1 = b.take (min p.length b.length) ++ p.drop (min p.length b.length) := by
  induction p generalizing b with
  | nil => cases b <;> simp [copy]
  | cons d ds ih =>
    cases b with
    | nil => simp [copy]
    | cons s ss => simp [copy, ih, Nat.succ_min_succ]

theorem updateLoop_fst (als : List AdditionalLabel) (index : Nat) (target : Endpoint)
    (ipForLabel : String) (port : Int) :
    (updateLoop als index target ipForLabel port).1 =
      { target with Labels := (updateLoop als index target ipForLabel port).1.Labels } := by
  induction als generalizing index target with
  | nil => simp [updateLoop]
  | cons al als ih =>
    simp only [updateLoop]
    rw [ih]

theorem updateLoop_requestedURLs (als : List AdditionalLabel) (index : Nat) (target : Endpoint)
    (ipForLabel : String) (port : Int) :
    requestedURLs (updateLoop als index target ipForLabel port).2 = [] := by
  induction als generalizing index target with
  | nil => simp [updateLoop, requestedURLs]
  | cons al als ih =>
    have h := ih (index + 1) { target with Labels := al.UpdateForTarget target ipForLabel port }
    simp only [requestedURLs] at h
    simp [updateLoop, requestedURLs, Event.requestURL, h]

theorem updateLoop_resolveCalls (als : List AdditionalLabel) (index : Nat) (target : Endpoint)
    (ipForLabel : String) (port : Int) :
    resolveCalls (updateLoop als index target ipForLabel port).2 = [] := by
  induction als generalizing index target with
  | nil => simp [updateLoop, resolveCalls]
  | cons al als ih =>
    have h := ih (index + 1) { target with Labels := al.UpdateForTarget target ipForLabel port }
    simp only [resolveCalls] at h
    simp [updateLoop, resolveCalls, Event.resolveArgs, h]

theorem updateLoop_mutatorCalls_port (als : List AdditionalLabel) (index : Nat)
    (target : Endpoint) (ipForLabel : String) (port : Int) :
    (mutatorCalls (updateLoop als index target ipForLabel port).2).map (fun c => c.2.2.2) =
      List.replicate als.length port := by
  induction als generalizing index target with
  | nil => simp [updateLoop, mutatorCalls]
  | cons al als ih =>
    have h := ih (index + 1) { target with Labels := al.UpdateForTarget target ipForLabel port }
    simp only [mutatorCalls] at h
    simp [updateLoop, mutatorCalls, Event.updateArgs, h, List.replicate_succ]

theorem headerLoop_fst (headers : List ProbeConf_Header) (probeHostHeader : String)
    (hdr : Header) :
    (headerLoop headers probeHostHeader hdr).1 =
      (lastHostValue headers).getD probeHostHeader := by
  induction headers generalizing probeHostHeader hdr with
  | nil => simp [headerLoop, lastHostValue]
  | cons h hs ih =>
    by_cases hn : h.Name = "Host"
    · simp only [headerLoop, ProbeConf_Header.GetName, hn, if_true, ProbeConf_Header.GetValue]
      rw [ih]
      simp only [lastHostValue, List.filter_cons, hn, decide_True, if_true]
      cases hf : List.filter (fun h => decide (h.Name = "Host")) hs with
      | nil => simp
      | cons x xs =>
        simp [List.getLast?_cons_cons, List.getLast?_eq_getLast (x :: xs) (List.cons_ne_nil x xs)]
    · simp only [headerLoop, ProbeConf_Header.GetName, hn, if_false]
      rw [ih]
      simp [lastHostValue, List.filter_cons, hn]

theorem buildRequest_Labels (lib : Stdlib) (p : Probe) (target : Endpoint) (port : Int)
    (urlHost ipForLabel : String) (before : List Event) :
    (buildRequest lib p target port urlHost ipForLabel before).Labels =
      (updateLoop p.opts.AdditionalLabels 0 target ipForLabel port).1.Labels := by
  unfold buildRequest
  simp only
  split <;> rfl

theorem buildRequest_requestedURLs (lib : Stdlib) (p : Probe) (target : Endpoint) (port : Int)
    (urlHost ipForLabel : String) (before : List Event) :
    requestedURLs (buildRequest lib p target port urlHost ipForLabel before).events =
      requestedURLs before ++
        [p.protocol ++ "://" ++ hostWithPort (bracketed urlHost) port ++
          relURLForTarget
            { target with
              Labels := (buildRequest lib p target port urlHost ipForLabel before).Labels }
            p.url] := by
  rw [buildRequest_Labels, ← updateLoop_fst]
  have hu := updateLoop_requestedURLs p.opts.AdditionalLabels 0 target ipForLabel port
  simp only [requestedURLs] at hu
  unfold buildRequest
  simp only [bracketed, IndexByte_nonneg_iff]
  split <;> simp [requestedURLs, List.filterMap_append, hu, Event.requestURL]

theorem buildRequest_resolveCalls (lib : Stdlib) (p : Probe) (target : Endpoint) (port : Int)
    (urlHost ipForLabel : String) (before : List Event) :
    resolveCalls (buildRequest lib p target port urlHost ipForLabel before).events =
      resolveCalls before := by
  have hu := updateLoop_resolveCalls p.opts.AdditionalLabels 0 target ipForLabel port
  simp only [resolveCalls] at hu
  unfold buildRequest
  simp only
  split <;> simp [resolveCalls, List.filterMap_append, hu, Event.resolveArgs]

theorem buildRequest_mutatorCalls (lib : Stdlib) (p : Probe) (target : Endpoint) (port : Int)
    (urlHost ipForLabel : String) (before : List Event) :
    mutatorCalls (buildRequest lib p target port urlHost ipForLabel before).events =
      mutatorCalls before ++
        mutatorCalls (updateLoop p.opts.AdditionalLabels 0 target ipForLabel port).2 := by
  unfold buildRequest
  simp only
  split <;> simp [mutatorCalls, List.filterMap_append, Event.updateArgs]

theorem buildRequest_Host (lib : Stdlib) (p : Probe) (target : Endpoint) (port : Int)
    (urlHost ipForLabel : String) (before : List Event) (req : Request)
    (h : (buildRequest lib p target port urlHost ipForLabel before).req = some req) :
    req.Host =
      hostHeaderForTarget
        { target with
          Labels := (buildRequest lib p target port urlHost ipForLabel before).Labels }
        ((lastHostValue p.c.Headers).getD "") port := by
  rw [buildRequest_Labels, ← updateLoop_fst]
  unfold buildRequest at h
  simp only at h
  split at h
  · simp at h
  · simp only [Option.some.injEq] at h
    rw [← h]
    simp [headerLoop_fst, ProbeConf.GetHeaders]

theorem buildRequest_URL (lib : Stdlib) (p : Probe) (target : Endpoint) (port : Int)
    (urlHost ipForLabel : String) (before : List Event) (req : Request)
    (h : (buildRequest lib p target port urlHost ipForLabel before).req = some req) :
    requestedURLs (buildRequest lib p target port urlHost ipForLabel before).events =
      requestedURLs before ++ [req.URL] := by
  have hu := updateLoop_requestedURLs p.opts.AdditionalLabels 0 target ipForLabel port
  simp only [requestedURLs] at hu
  unfold buildRequest at h ⊢
  simp only at h ⊢
  split at h
  · simp at h
  · rename_i r hr
    simp only [Option.some.injEq] at h
    rw [← h]
    simp only [hr]
    unfold NewRequest at hr
    split at hr
    · simp at hr
    · simp only [Except.ok.injEq] at hr
      rw [← hr]
      simp [requestedURLs, List.filterMap_append, hu, Event.requestURL]

/-- The builder on every run in which resolution does not fail: the part
after the resolution block, started from the resolved address when
resolve-first is true and from the target's own host otherwise. -/
theorem httpRequestForTarget_eq (lib : Stdlib) (p : Probe) (target : Endpoint) (ip : IP)
    (hres : resolveFirst p target = true →
      target.Resolve p.opts.IPVersion p.opts.Targets = Except.ok ip) :
    httpRequestForTarget lib p target =
      buildRequest lib p target (effectivePort p target)
        (if resolveFirst p target = true then lib.ipString ip else urlHostForTarget target)
        (if resolveFirst p target = true then lib.ipString ip else "")
        (if resolveFirst p target = true then [Event.Resolve target p.opts.IPVersion] else []) := by
  unfold httpRequestForTarget
  by_cases h : resolveFirst p target = true
  · simp [h, hres h]
  · simp [h]

theorem effectivePort_eq (p : Probe) (target : Endpoint) :
    effectivePort p target =
      match p.c.Port with
      | some v => if v ≠ 0 then v else target.Port
      | none => target.Port := by
  unfold effectivePort ProbeConf.GetPort
  cases p.c.Port with
  | none => simp
  | some v => by_cases hv : v = 0 <;> simp [hv]

theorem hostWithPort_eq (host : String) (port : Int) :
    hostWithPort host port = host ++ (if port = 0 then "" else ":" ++ itoa port) := by
  unfold hostWithPort
  by_cases h : port = 0
  · simp [h]
  · simp [h, String.append_assoc]

/-- The Host header of a built request: `hostHeaderForTarget` on the target
with the labels the call leaves, the last configured Host value (or the empty
string) and the port. -/
theorem httpRequestForTarget_Host (lib : Stdlib) (p : Probe) (target : Endpoint)
    (req : Request) (hreq : (httpRequestForTarget lib p target).req = some req) :
    req.Host =
      hostHeaderForTarget
        { target with Labels := (httpRequestForTarget lib p target).Labels }
        ((lastHostValue p.c.Headers).getD "") (effectivePort p target) := by
  by_cases hrf : resolveFirst p target = true
  · cases hR : target.Resolve p.opts.IPVersion p.opts.Targets with
    | error e =>
      unfold httpRequestForTarget at hreq
      simp [hrf, hR] at hreq
    | ok ip =>
      have e := httpRequestForTarget_eq lib p target ip (fun _ => hR)
      rw [e] at hreq ⊢
      exact buildRequest_Host lib p target _ _ _ _ req hreq
  · have e := httpRequestForTarget_eq lib p target [] (fun h => absurd h hrf)
    rw [e] at hreq ⊢
    exact buildRequest_Host lib p target _ _ _ _ req hreq

/-- The calls of the resolver in one run: one call, for this target and the
configured IP version, when resolve-first is true, and none otherwise. -/
theorem httpRequestForTarget_resolveCalls (lib : Stdlib) (p : Probe) (target : Endpoint) :
    resolveCalls (httpRequestForTarget lib p target).events =
      if resolveFirst p target = true then [(target, p.opts.IPVersion)] else [] := by
  by_cases hrf : resolveFirst p target = true
  · cases hR : target.Resolve p.opts.IPVersion p.opts.Targets with
    | error e =>
      unfold httpRequestForTarget
      simp [hrf, hR, resolveCalls, Event.resolveArgs]
    | ok ip =>
      rw [httpRequestForTarget_eq lib p target ip (fun _ => hR), buildRequest_resolveCalls]
      simp [hrf, resolveCalls, Event.resolveArgs]
  · rw [httpRequestForTarget_eq lib p target [] (fun h => absurd h hrf),
      buildRequest_resolveCalls]
    simp [hrf, resolveCalls]

/-- The request that `buildRequest` returns, in terms of the URL it hands to
request construction: none when the method or the URL is rejected, otherwise
the request with every field set. -/
theorem buildRequest_req (lib : Stdlib) (p : Probe) (target : Endpoint) (port : Int)
    (urlHost ipForLabel : String) (before : List Event) (url : String)
    (hurl : requestedURLs (buildRequest lib p target port urlHost ipForLabel before).events =
      requestedURLs before ++ [url]) :
    (buildRequest lib p target port urlHost ipForLabel before).req =
      match lib.requestError p.method url with
      | some _ => none
      | none =>
        some
          { Method := if p.method = "" then "GET" else p.method
            URL := url
            Header := (headerLoop p.c.Headers "" { entries := [] }).2
            Host :=
              hostHeaderForTarget
                { target with
                  Labels := (buildRequest lib p target port urlHost ipForLabel before).Labels }
                ((lastHostValue p.c.Headers).getD "") port
            ContentLength := (p.requestBody.length : Int)
            Body := if p.requestBody.length > 0 then some { b := p.requestBody } else none } := by
  rw [buildRequest_requestedURLs] at hurl
  have hu := List.append_cancel_left hurl
  simp only [List.cons.injEq, and_true] at hu
  rw [← hu, buildRequest_Labels, ← updateLoop_fst]
  unfold buildRequest NewRequest
  simp only [bracketed, IndexByte_nonneg_iff]
  cases hE : lib.requestError p.method
      (p.protocol ++ "://" ++
        hostWithPort (if ':' ∈ urlHost.data then "[" ++ urlHost ++ "]" else urlHost) port ++
        relURLForTarget (updateLoop p.opts.AdditionalLabels 0 target ipForLabel port).1 p.url) with
  | some e => simp
  | none => simp [headerLoop_fst, ProbeConf.GetHeaders]

/-- A run hands exactly one URL to request construction, unless resolution
fails: then it hands none and returns no request. -/
theorem httpRequestForTarget_urls (lib : Stdlib) (p : Probe) (target : Endpoint) :
    (resolveFirst p target = true ∧
        (∃ err, target.Resolve p.opts.IPVersion p.opts.Targets = Except.error err) ∧
        requestedURLs (httpRequestForTarget lib p target).events = [] ∧
        (httpRequestForTarget lib p target).req = none) ∨
      ((resolveFirst p target = true →
          ∃ ip, target.Resolve p.opts.IPVersion p.opts.Targets = Except.ok ip) ∧
        ∃ url, requestedURLs (httpRequestForTarget lib p target).events = [url]) := by
  by_cases hrf : resolveFirst p target = true
  · cases hR : target.Resolve p.opts.IPVersion p.opts.Targets with
    | error e =>
      left
      unfold httpRequestForTarget
      simp [hrf, hR, requestedURLs, Event.requestURL]
    | ok ip =>
      right
      refine ⟨fun _ => ⟨ip, rfl⟩, ?_⟩
      rw [httpRequestForTarget_eq lib p target ip (fun _ => hR), buildRequest_requestedURLs]
      simp [hrf, requestedURLs, Event.requestURL]
  · right
    refine ⟨fun h => absurd h hrf, ?_⟩
    rw [httpRequestForTarget_eq lib p target [] (fun h => absurd h hrf),
      buildRequest_requestedURLs]
    simp [hrf, requestedURLs]

/-- The request that a run returns, in terms of the URL it hands to request
construction. -/
theorem httpRequestForTarget_req (lib : Stdlib) (p : Probe) (target : Endpoint) (url : String)
    (hurl : requestedURLs (httpRequestForTarget lib p target).events = [url]) :
    (httpRequestForTarget lib p target).req =
      match lib.requestError p.method url with
      | some _ => none
      | none =>
        some
          { Method := if p.method = "" then "GET" else p.method
            URL := url
            Header := (headerLoop p.c.Headers "" { entries := [] }).2
            Host :=
              hostHeaderForTarget
                { target with Labels := (httpRequestForTarget lib p target).Labels }
                ((lastHostValue p.c.Headers).getD "") (effectivePort p target)
            ContentLength := (p.requestBody.length : Int)
            Body := if p.requestBody.length > 0 then some { b := p.requestBody } else none } := by
  by_cases hrf : resolveFirst p target = true
  · cases hR : target.Resolve p.opts.IPVersion p.opts.Targets with
    | error e =>
      unfold httpRequestForTarget at hurl
      simp [hrf, hR, requestedURLs, Event.requestURL] at hurl
    | ok ip =>
      have e := httpRequestForTarget_eq lib p target ip (fun _ => hR)
      rw [e] at hurl ⊢
      apply buildRequest_req
      rw [hurl]
      simp [hrf, requestedURLs, Event.requestURL]
  · have e := httpRequestForTarget_eq lib p target [] (fun h => absurd h hrf)
    rw [e] at hurl ⊢
    apply buildRequest_req
    rw [hurl]
    simp [hrf, requestedURLs]

theorem lookup_filter_ne (key ck : String) (hne : ck ≠ key)
    (l : List (String × List String)) :
    (l.filter (fun e => e.1 ≠ ck)).lookup key = l.lookup key := by
  induction l with
  | nil => rfl
  | cons e es ih =>
    obtain ⟨k, vs⟩ := e
    by_cases hk : k = ck
    · have hd : decide ((k, vs).1 ≠ ck) = false := by simp [hk]
      have hkey : (key == k) = false := by
        rw [hk]
        exact beq_false_of_ne (fun h => hne h.symm)
      rw [List.filter_cons, hd, List.lookup_cons, hkey]
      simpa using ih
    · have hd : decide ((k, vs).1 ≠ ck) = true := by simp [hk]
      rw [List.filter_cons, hd]
      simp only [if_true, List.lookup_cons]
      rw [ih]

theorem Header.index_Set (h : Header) (k v key : String) :
    (h.Set k v).index key =
      if CanonicalMIMEHeaderKey k = key then some [v] else h.index key := by
  unfold Header.Set Header.index
  by_cases hk : CanonicalMIMEHeaderKey k = key
  · simp [hk, List.lookup_cons]
  · have hkey : (key == CanonicalMIMEHeaderKey k) = false :=
      beq_false_of_ne (fun h => hk h.symm)
    simp only [List.lookup_cons, hkey, hk, if_false]
    exact lookup_filter_ne key (CanonicalMIMEHeaderKey k) hk h.entries

theorem headerLoop_snd (headers : List ProbeConf_Header) (probeHostHeader : String)
    (hdr : Header) (key : String) :
    (headerLoop headers probeHostHeader hdr).2.index key =
      match lastValueUnder headers key with
      | some v => some [v]
      | none => hdr.index key := by
  induction headers generalizing probeHostHeader hdr with
  | nil => simp [headerLoop, lastValueUnder]
  | cons h hs ih =>
    by_cases hn : h.Name = "Host"
    · simp only [headerLoop, ProbeConf_Header.GetName, hn, if_true]
      rw [ih]
      simp [lastValueUnder, List.filter_cons, hn]
    · simp only [headerLoop, ProbeConf_Header.GetName, hn, if_false, ProbeConf_Header.GetValue]
      rw [ih, Header.index_Set]
      by_cases hc : CanonicalMIMEHeaderKey h.Name = key
      · have hd : decide (h.Name ≠ "Host" ∧ CanonicalMIMEHeaderKey h.Name = key) = true := by
          simp [hn, hc]
        simp only [lastValueUnder, List.filter_cons, hd, if_true]
        cases hf : List.filter
            (fun h => decide (h.Name ≠ "Host" ∧ CanonicalMIMEHeaderKey h.Name = key)) hs with
        | nil => simp [hc]
        | cons x xs =>
          simp [List.getLast?_cons_cons,
            List.getLast?_eq_getLast (x :: xs) (List.cons_ne_nil x xs)]
      · simp [lastValueUnder, List.filter_cons, hn, hc]

theorem copy_copy (p b : List Byte) : copy (copy p b).1 b = copy p b := by
  induction p generalizing b with
  | nil => cases b <;> simp [copy]
  | cons d ds ih =>
    cases b with
    | nil => simp [copy]
    | cons s ss => simp [copy, ih]

/-- The fields of a request that a run returns. -/
theorem httpRequestForTarget_fields (lib : Stdlib) (p : Probe) (target : Endpoint)
    (req : Request) (hreq : (httpRequestForTarget lib p target).req = some req) :
    requestedURLs (httpRequestForTarget lib p target).events = [req.URL] ∧
      lib.requestError p.method req.URL = none ∧
      req.Method = (if p.method = "" then "GET" else p.method) ∧
      req.Header = (headerLoop p.c.Headers "" { entries := [] }).2 ∧
      req.ContentLength = (p.requestBody.length : Int) ∧
      req.Body = (if p.requestBody.length > 0 then some { b := p.requestBody } else none) := by
  rcases httpRequestForTarget_urls lib p target with ⟨_, _, _, hnone⟩ | ⟨_, url, hurl⟩
  · rw [hnone] at hreq
    simp at hreq
  · have h := httpRequestForTarget_req lib p target url hurl
    rw [hreq] at h
    cases hE : lib.requestError p.method url with
    | some e =>
      rw [hE] at h
      simp at h
    | none =>
      rw [hE] at h
      simp only [Option.some.injEq] at h
      rw [h]
      exact ⟨hurl, hE, rfl, rfl, rfl, rfl⟩

theorem updateLoop_mutatorCalls_index (als : List AdditionalLabel) (index : Nat)
    (target : Endpoint) (ipForLabel : String) (port : Int) :
    (mutatorCalls (updateLoop als index target ipForLabel port).2).map (fun c => c.1) =
      List.range' index als.length := by
  induction als generalizing index target with
  | nil => simp [updateLoop, mutatorCalls]
  | cons al als ih =>
    have h := ih (index + 1) { target with Labels := al.UpdateForTarget target ipForLabel port }
    simp only [mutatorCalls] at h
    simp [updateLoop, mutatorCalls, Event.updateArgs, h, List.range'_succ]

theorem updateLoop_mutatorCalls_address (als : List AdditionalLabel) (index : Nat)
    (target : Endpoint) (ipForLabel : String) (port : Int) :
    (mutatorCalls (updateLoop als index target ipForLabel port).2).map (fun c => c.2.2.1) =
      List.replicate als.length ipForLabel := by
  induction als generalizing index target with
  | nil => simp [updateLoop, mutatorCalls]
  | cons al als ih =>
    have h := ih (index + 1) { target with Labels := al.UpdateForTarget target ipForLabel port }
    simp only [mutatorCalls] at h
    simp [updateLoop, mutatorCalls, Event.updateArgs, h, List.replicate_succ]

theorem updateLoop_mutatorCalls_target (als : List AdditionalLabel) (index : Nat)
    (target : Endpoint) (ipForLabel : String) (port : Int) :
    ∀ c ∈ mutatorCalls (updateLoop als index target ipForLabel port).2,
      c.2.1.Name = target.Name ∧ c.2.1.Port = target.Port ∧ c.2.1.IP = target.IP := by
  induction als generalizing index target with
  | nil => simp [updateLoop, mutatorCalls]
  | cons al als ih =>
    have h := ih (index + 1) { target with Labels := al.UpdateForTarget target ipForLabel port }
    simp only [mutatorCalls] at h
    intro c hc
    simp only [updateLoop, mutatorCalls, List.filterMap_cons, Event.updateArgs,
      List.mem_cons] at hc
    rcases hc with hc | hc
    · rw [hc]
      exact ⟨rfl, rfl, rfl⟩
    · exact h c hc

theorem updateLoop_mutatorCalls_head (als : List AdditionalLabel) (index : Nat)
    (target : Endpoint) (ipForLabel : String) (port : Int) :
    (mutatorCalls (updateLoop als index target ipForLabel port).2).head? =
      if als.isEmpty then none else some (index, target, ipForLabel, port) := by
  cases als with
  | nil => simp [updateLoop, mutatorCalls]
  | cons al als => simp [updateLoop, mutatorCalls, Event.updateArgs]

/-- The calls of label mutators in a run in which resolution does not fail:
those of the mutator loop, started on the target as passed in. -/
theorem httpRequestForTarget_mutatorCalls (lib : Stdlib) (p : Probe) (target : Endpoint)
    (ip : IP)
    (hres : resolveFirst p target = true →
      target.Resolve p.opts.IPVersion p.opts.Targets = Except.ok ip) :
    mutatorCalls (httpRequestForTarget lib p target).events =
      mutatorCalls
        (updateLoop p.opts.AdditionalLabels 0 target
          (if resolveFirst p target = true then lib.ipString ip else "")
          (effectivePort p target)).2 := by
  rw [httpRequestForTarget_eq lib p target ip hres, buildRequest_mutatorCalls]
  by_cases h : resolveFirst p target = true
  · simp [h, mutatorCalls, Event.updateArgs]
  · simp [h, mutatorCalls]

/-- The URL of a run without resolution: the host is chosen from the target
as passed in, the path from the labels the run leaves. -/
theorem httpRequestForTarget_named (lib : Stdlib) (p : Probe) (target : Endpoint)
    (hrf : resolveFirst p target = false) :
    requestedURLs (httpRequestForTarget lib p target).events =
      [p.protocol ++ "://" ++
        hostWithPort (bracketed (urlHostForTarget target)) (effectivePort p target) ++
        relURLForTarget
          { target with Labels := (httpRequestForTarget lib p target).Labels } p.url] := by
  rw [httpRequestForTarget_eq lib p target [] (fun h => by simp [hrf] at h),
    buildRequest_requestedURLs]
  simp [hrf, requestedURLs]

/-- The order of the calls in a run without resolution: first the calls of
the mutator loop, then the rest, which holds the request construction and no
call of a mutator. -/
theorem httpRequestForTarget_named_order (lib : Stdlib) (p : Probe) (target : Endpoint)
    (hrf : resolveFirst p target = false) :
    ∃ tail,
      (httpRequestForTarget lib p target).events =
        (updateLoop p.opts.AdditionalLabels 0 target "" (effectivePort p target)).2 ++ tail ∧
      mutatorCalls tail = [] ∧
      requestedURLs tail = requestedURLs (httpRequestForTarget lib p target).events := by
  have hu := updateLoop_requestedURLs p.opts.AdditionalLabels 0 target ""
    (effectivePort p target)
  simp only [requestedURLs] at hu
  rw [httpRequestForTarget_eq lib p target [] (fun h => by simp [hrf] at h)]
  simp only [hrf, Bool.false_eq_true, if_false]
  unfold buildRequest
  simp only
  split
  · refine ⟨_, by rw [List.nil_append, List.append_assoc], ?_, ?_⟩
    · simp [mutatorCalls, Event.updateArgs]
    · simp [requestedURLs, List.filterMap_append, hu, Event.requestURL]
  · refine ⟨_, by rw [List.nil_append], ?_, ?_⟩
    · simp [mutatorCalls, Event.updateArgs]
    · simp [requestedURLs, List.filterMap_append, hu, Event.requestURL]

/-- Mutators whose stored labels are the same for the addresses `a` and `b`
leave the same target behind for both. -/
theorem updateLoop_fst_address (als : List AdditionalLabel) (index : Nat) (target : Endpoint)
    (a b : String) (port : Int)
    (h : ∀ al ∈ als, ∀ t : Endpoint, al.UpdateForTarget t a port = al.UpdateForTarget t b port) :
    (updateLoop als index target a port).1 = (updateLoop als index target b port).1 := by
  induction als generalizing index target with
  | nil => rfl
  | cons al als ih =>
    simp only [updateLoop]
    rw [h al (List.mem_cons_self _ _)]
    exact ih _ _ (fun al2 hm t => h al2 (List.mem_cons_of_mem _ hm) t)

/-- The labels a run leaves when resolution succeeds: those of the mutator
loop, run with the string form of the resolved address. -/
theorem httpRequestForTarget_Labels_resolved (lib : Stdlib) (p : Probe) (target : Endpoint)
    (ip : IP) (hrf : resolveFirst p target = true)
    (hok : target.Resolve p.opts.IPVersion p.opts.Targets = Except.ok ip) :
    (httpRequestForTarget lib p target).Labels =
      (updateLoop p.opts.AdditionalLabels 0 target (lib.ipString ip)
        (effectivePort p target)).1.Labels := by
  rw [httpRequestForTarget_eq lib p target ip (fun _ => hok), buildRequest_Labels]
  simp [hrf]

/-- The Host header of `hostHeaderForTarget` for two label stores with the
same fqdn label. -/
theorem hostHeaderForTarget_congr (target : Endpoint) (l1 l2 : List (String × String))
    (probeHostHeader : String) (port : Int) (h : mapIndex l1 "fqdn" = mapIndex l2 "fqdn") :
    hostHeaderForTarget { target with Labels := l1 } probeHostHeader port =
      hostHeaderForTarget { target with Labels := l2 } probeHostHeader port := by
  unfold hostHeaderForTarget
  simp only [h]

/-! ## Host header selection -/

/-- C1: `hostHeaderForTarget` returns the probe's Host override when it is
non-empty; otherwise, when the target's fqdn label is non-empty, the fqdn
followed by ":" and the decimal port if the port is not 0 and the fqdn alone
if it is 0; otherwise the target's name with the same port rule. -/
theorem hostHeaderForTarget_precedence (target : Endpoint) (probeHostHeader : String)
    (port : Int) :
    hostHeaderForTarget target probeHostHeader port =
      if probeHostHeader ≠ "" then probeHostHeader
      else if mapIndex target.Labels "fqdn" ≠ "" then
        (if port ≠ 0 then mapIndex target.Labels "fqdn" ++ ":" ++ itoa port
         else mapIndex target.Labels "fqdn")
      else (if port ≠ 0 then target.Name ++ ":" ++ itoa port else target.Name) := by
  unfold hostHeaderForTarget hostWithPort
  by_cases hp : port = 0 <;> simp [hp]

/-! ## URL host and URL assembly -/

/-- C3: on every run in which resolution does not fail, the host placed in
the request URL is the string form of the resolved address when
resolve-first is true, otherwise the target's fqdn label when it is
non-empty, else the target's name; it is wrapped in "[" and "]" exactly when
it contains a colon and left unchanged otherwise. -/
theorem urlHost_selection (lib : Stdlib) (p : Probe) (target : Endpoint) (ip : IP)
    (hres : resolveFirst p target = true →
      target.Resolve p.opts.IPVersion p.opts.Targets = Except.ok ip) :
    requestedURLs (httpRequestForTarget lib p target).events =
      [p.protocol ++ "://" ++
        hostWithPort
          (if ':' ∈
              (if resolveFirst p target = true then lib.ipString ip
               else if mapIndex target.Labels "fqdn" ≠ "" then mapIndex target.Labels "fqdn"
               else target.Name).data
           then
            "[" ++
              (if resolveFirst p target = true then lib.ipString ip
               else if mapIndex target.Labels "fqdn" ≠ "" then mapIndex target.Labels "fqdn"
               else target.Name) ++ "]"
           else
            (if resolveFirst p target = true then lib.ipString ip
             else if mapIndex target.Labels "fqdn" ≠ "" then mapIndex target.Labels "fqdn"
             else target.Name))
          (effectivePort p target) ++
        relURLForTarget
          { target with Labels := (httpRequestForTarget lib p target).Labels } p.url] := by
  rw [httpRequestForTarget_eq lib p target ip hres, buildRequest_requestedURLs]
  by_cases h : resolveFirst p target = true
  · simp [h, requestedURLs, bracketed, Event.requestURL]
  · simp [h, requestedURLs, bracketed, urlHostForTarget]

/-- Witness of C3: the target "b" with address `::1`, resolve-first by
default; the URL host is the bracketed address. -/
theorem urlHost_selection_witness :
    (resolveFirst (exampleProbe none none []) exampleTargetB = true ∧
      exampleTargetB.Resolve 0 exampleTargets = Except.ok exampleLoopback) ∧
    requestedURLs (httpRequestForTarget exampleStdlib (exampleProbe none none [])
      exampleTargetB).events = ["http://[::1]"] :=
  ⟨⟨by decide, rfl⟩,
    urlHost_selection exampleStdlib (exampleProbe none none []) exampleTargetB exampleLoopback
      (fun _ => rfl)⟩

/-- C5: on every run in which resolution does not fail, the URL handed to
request construction is protocol, "://", the (possibly bracketed) URL host,
the port suffix and the path, where the port suffix is ":" and the decimal
port when the port is not 0 and empty when it is 0; a request that is built
carries this URL. -/
theorem url_assembly (lib : Stdlib) (p : Probe) (target : Endpoint) (ip : IP)
    (hres : resolveFirst p target = true →
      target.Resolve p.opts.IPVersion p.opts.Targets = Except.ok ip) :
    requestedURLs (httpRequestForTarget lib p target).events =
      [p.protocol ++ "://" ++
        bracketed (if resolveFirst p target = true then lib.ipString ip
          else urlHostForTarget target) ++
        (if effectivePort p target = 0 then "" else ":" ++ itoa (effectivePort p target)) ++
        relURLForTarget
          { target with Labels := (httpRequestForTarget lib p target).Labels } p.url] ∧
    ∀ req, (httpRequestForTarget lib p target).req = some req →
      req.URL =
        p.protocol ++ "://" ++
          bracketed (if resolveFirst p target = true then lib.ipString ip
            else urlHostForTarget target) ++
          (if effectivePort p target = 0 then "" else ":" ++ itoa (effectivePort p target)) ++
          relURLForTarget
            { target with Labels := (httpRequestForTarget lib p target).Labels } p.url := by
  have hurl :
      requestedURLs (httpRequestForTarget lib p target).events =
        [p.protocol ++ "://" ++
          bracketed (if resolveFirst p target = true then lib.ipString ip
            else urlHostForTarget target) ++
          (if effectivePort p target = 0 then "" else ":" ++ itoa (effectivePort p target)) ++
          relURLForTarget
            { target with Labels := (httpRequestForTarget lib p target).Labels } p.url] := by
    rw [httpRequestForTarget_eq lib p target ip hres, buildRequest_requestedURLs,
      hostWithPort_eq]
    by_cases h : resolveFirst p target = true
    · simp [h, requestedURLs, Event.requestURL, String.append_assoc]
    · simp [h, requestedURLs, String.append_assoc]
  refine ⟨hurl, ?_⟩
  intro req hreq
  have h2 := hurl
  rw [httpRequestForTarget_eq lib p target ip hres] at hreq h2
  rw [buildRequest_URL lib p target _ _ _ _ req hreq] at h2
  rw [httpRequestForTarget_eq lib p target ip hres]
  by_cases h : resolveFirst p target = true
  · simpa [h, requestedURLs, Event.requestURL] using h2
  · simpa [h, requestedURLs] using h2

/-- Witness of C5: the target "a.com" with an fqdn label, a path label and
port 8080, no resolution. -/
theorem url_assembly_witness :
    resolveFirst (exampleProbe none none []) exampleTargetFqdn = false ∧
    requestedURLs (httpRequestForTarget exampleStdlib (exampleProbe none none [])
      exampleTargetFqdn).events = ["http://a.example.com:8080/health"] ∧
    ∀ req, (httpRequestForTarget exampleStdlib (exampleProbe none none [])
      exampleTargetFqdn).req = some req → req.URL = "http://a.example.com:8080/health" :=
  ⟨by decide,
    url_assembly exampleStdlib (exampleProbe none none []) exampleTargetFqdn []
      (fun h => absurd h (by decide))⟩

/-! ## Path selection -/

/-- C7: `relURLForTarget` returns the configured path override when it is
non-empty; otherwise the target's relative_url label when that is non-empty;
otherwise the empty string.  With a non-empty override the result is the
same for every target, whatever its labels. -/
theorem relURLForTarget_precedence (target : Endpoint) (probeURL : String) :
    relURLForTarget target probeURL =
        (if probeURL ≠ "" then probeURL
         else if mapIndex target.Labels "relative_url" ≠ "" then
           mapIndex target.Labels "relative_url"
         else "") ∧
      (probeURL ≠ "" →
        ∀ other : Endpoint, relURLForTarget other probeURL = relURLForTarget target probeURL) := by
  refine ⟨by simp [relURLForTarget, relURLLabel], ?_⟩
  intro h other
  simp [relURLForTarget, h]

/-- Witness of C7: with the override "/x" the path label of the target is
not consulted. -/
theorem relURLForTarget_precedence_witness :
    relURLForTarget exampleTargetFqdn "/x" = "/x" ∧
      relURLForTarget exampleTargetA "/x" = relURLForTarget exampleTargetFqdn "/x" :=
  ⟨(relURLForTarget_precedence exampleTargetFqdn "/x").1,
    (relURLForTarget_precedence exampleTargetFqdn "/x").2 (by decide) exampleTargetA⟩

/-! ## The body reader -/

/-- C10: for every body `b` and destination buffer `p`, `Read` returns
`n = min (len p) (len b)` together with end-of-stream; afterwards the first
`n` bytes of `p` are the first `n` bytes of `b`, the bytes of `p` from index
`n` on are unchanged, and `p` keeps its length. -/
theorem requestBody_Read_spec (b p : List Byte) :
    (requestBody.Read { b := b } p).n = min p.length b.length ∧
      (requestBody.Read { b := b } p).err = error.EOF ∧
      (requestBody.Read { b := b } p).p.take (min p.length b.length) =
        b.take (min p.length b.length) ∧
      (requestBody.Read { b := b } p).p.drop (min p.length b.length) =
        p.drop (min p.length b.length) ∧
      (requestBody.Read { b := b } p).p.length = p.length := by
  have hlen : (List.take (min p.length b.length) b).length = min p.length b.length := by
    rw [List.length_take]
    omega
  refine ⟨by simp [requestBody.Read, copy_snd], rfl, ?_, ?_, ?_⟩
  · simp only [requestBody.Read, copy_fst]
    rw [List.take_append_of_le_length (by omega), List.take_of_length_le (by omega)]
  · simp only [requestBody.Read, copy_fst]
    rw [List.drop_append_of_le_length (by omega), List.drop_of_length_le (by omega)]
    simp
  · simp only [requestBody.Read, copy_fst, List.length_append, List.length_drop, hlen]
    omega

/-! ## The builder: Host override, IPv6 literals, port, resolution -/

/-- Counterexample to C2 as stated: the header list is the single entry
("Host", ""), the target is "a" without labels or port.  The request is built
and its Host header is the target's name, not the configured value. -/
theorem host_entry_empty_value_counterexample :
    ∃ req v,
      (httpRequestForTarget exampleStdlib
        (exampleProbe none none [{ Name := "Host", Value := "" }]) exampleTargetA).req = some req ∧
      lastHostValue (exampleProbe none none [{ Name := "Host", Value := "" }]).c.Headers = some v ∧
      req.Host ≠ v ∧ req.Host = exampleTargetA.Name := by
  refine ⟨{ Method := "GET", URL := "http://a", Header := { entries := [] }, Host := "a",
            ContentLength := 0, Body := none }, "", ?_, ?_, ?_, ?_⟩ <;> decide

/-- C2 (amended): when the header list has an entry named "Host", `v` being
the value of the last one, a built request's Host header is `v` if `v` is
non-empty, in resolve-first mode and without it, whatever the target's fqdn
label and name; if `v` is empty the Host header is the one derived from the
fqdn label or the name and the port, as without a Host entry. -/
theorem host_entry_overrides (lib : Stdlib) (p : Probe) (target : Endpoint) (v : String)
    (req : Request) (hv : lastHostValue p.c.Headers = some v)
    (hreq : (httpRequestForTarget lib p target).req = some req) :
    req.Host =
      if v ≠ "" then v
      else
        hostHeaderForTarget
          { target with Labels := (httpRequestForTarget lib p target).Labels } ""
          (effectivePort p target) := by
  have key := httpRequestForTarget_Host lib p target req hreq
  rw [hv] at key
  simp only [Option.getD_some] at key
  rw [key]
  by_cases h : v = "" <;> simp [hostHeaderForTarget, h]

/-- Witness of C2 (amended): the Host entry "probe.example" wins over the
fqdn label of the target in resolve-first mode. -/
theorem host_entry_overrides_witness :
    lastHostValue (exampleProbe none (some true)
        [{ Name := "Host", Value := "probe.example" }]).c.Headers = some "probe.example" ∧
    ∃ req,
      (httpRequestForTarget exampleStdlib
        (exampleProbe none (some true) [{ Name := "Host", Value := "probe.example" }])
        { exampleTargetB with Labels := [("fqdn", "b.example.com")] }).req = some req ∧
      req.Host = "probe.example" :=
  ⟨by decide,
    { Method := "GET", URL := "http://[::1]", Header := { entries := [] },
      Host := "probe.example", ContentLength := 0, Body := none },
    by decide,
    host_entry_overrides exampleStdlib
      (exampleProbe none (some true) [{ Name := "Host", Value := "probe.example" }])
      { exampleTargetB with Labels := [("fqdn", "b.example.com")] } "probe.example" _
      (by decide) (by decide)⟩

/-- Counterexample to C4 as stated: resolve-first is set for the target "b"
and the one label mutator stores the address it is passed under the label
"fqdn".  Two runs that differ only in the resolved address, `::1` and `::2`,
build requests with the Host headers "::1" and "::2": the Host header depends
on the resolved address. -/
theorem host_depends_on_address_counterexample :
    (exampleProbeResolving exampleLoopback [exampleAddressLabel]).c =
      (exampleProbeResolving exampleLoopback2 [exampleAddressLabel]).c ∧
    (httpRequestForTarget exampleStdlibV6
      (exampleProbeResolving exampleLoopback [exampleAddressLabel]) exampleTargetBare).req =
      some { Method := "GET", URL := "http://[::1]", Header := { entries := [] },
             Host := "::1", ContentLength := 0, Body := none } ∧
    (httpRequestForTarget exampleStdlibV6
      (exampleProbeResolving exampleLoopback2 [exampleAddressLabel]) exampleTargetBare).req =
      some { Method := "GET", URL := "http://[::2]", Header := { entries := [] },
             Host := "::2", ContentLength := 0, Body := none } ∧
    ∃ req1 req2,
      (httpRequestForTarget exampleStdlibV6
        (exampleProbeResolving exampleLoopback [exampleAddressLabel]) exampleTargetBare).req =
        some req1 ∧
      (httpRequestForTarget exampleStdlibV6
        (exampleProbeResolving exampleLoopback2 [exampleAddressLabel]) exampleTargetBare).req =
        some req2 ∧
      req1.Host ≠ req2.Host := by
  refine ⟨rfl, by decide, by decide,
    { Method := "GET", URL := "http://[::1]", Header := { entries := [] },
      Host := "::1", ContentLength := 0, Body := none },
    { Method := "GET", URL := "http://[::2]", Header := { entries := [] },
      Host := "::2", ContentLength := 0, Body := none }, by decide, by decide, by decide⟩

/-- C4 (amended): when resolve-first is true and resolution succeeds with an
address whose string form contains a colon, the URL host is that string in
square brackets, and the Host header of a built request is the Host override
if it is non-empty, else the fqdn label, as the mutators leave it, with the
port, else the name with the port; no bracket is added.  The Host header is
the same for every other resolved address under which the mutators leave the
same fqdn label, in particular when the labels the mutators store are the
same for both addresses. -/
theorem ipv6_literal_host (lib : Stdlib) (p : Probe) (target : Endpoint) (ip : IP)
    (hrf : resolveFirst p target = true)
    (hok : target.Resolve p.opts.IPVersion p.opts.Targets = Except.ok ip)
    (hcolon : ':' ∈ (lib.ipString ip).data) :
    requestedURLs (httpRequestForTarget lib p target).events =
        [p.protocol ++ "://" ++
          hostWithPort ("[" ++ lib.ipString ip ++ "]") (effectivePort p target) ++
          relURLForTarget
            { target with Labels := (httpRequestForTarget lib p target).Labels } p.url] ∧
      (∀ req, (httpRequestForTarget lib p target).req = some req →
        req.Host =
          if (lastHostValue p.c.Headers).getD "" ≠ "" then (lastHostValue p.c.Headers).getD ""
          else if mapIndex (httpRequestForTarget lib p target).Labels "fqdn" ≠ "" then
            hostWithPort (mapIndex (httpRequestForTarget lib p target).Labels "fqdn")
              (effectivePort p target)
          else hostWithPort target.Name (effectivePort p target)) ∧
      (∀ (lib2 : Stdlib) (p2 : Probe), p2.c = p.c →
        mapIndex (httpRequestForTarget lib2 p2 target).Labels "fqdn" =
          mapIndex (httpRequestForTarget lib p target).Labels "fqdn" →
        ∀ req req2, (httpRequestForTarget lib p target).req = some req →
          (httpRequestForTarget lib2 p2 target).req = some req2 → req2.Host = req.Host) ∧
      ∀ (lib2 : Stdlib) (p2 : Probe) (ip2 : IP), p2.c = p.c →
        p2.opts.AdditionalLabels = p.opts.AdditionalLabels →
        target.Resolve p2.opts.IPVersion p2.opts.Targets = Except.ok ip2 →
        (∀ al ∈ p.opts.AdditionalLabels, ∀ t : Endpoint,
          al.UpdateForTarget t (lib2.ipString ip2) (effectivePort p target) =
            al.UpdateForTarget t (lib.ipString ip) (effectivePort p target)) →
        (httpRequestForTarget lib2 p2 target).Labels =
            (httpRequestForTarget lib p target).Labels ∧
          ∀ req req2, (httpRequestForTarget lib p target).req = some req →
            (httpRequestForTarget lib2 p2 target).req = some req2 → req2.Host = req.Host := by
  have hsame : ∀ (lib2 : Stdlib) (p2 : Probe), p2.c = p.c →
      mapIndex (httpRequestForTarget lib2 p2 target).Labels "fqdn" =
        mapIndex (httpRequestForTarget lib p target).Labels "fqdn" →
      ∀ req req2, (httpRequestForTarget lib p target).req = some req →
        (httpRequestForTarget lib2 p2 target).req = some req2 → req2.Host = req.Host := by
    intro lib2 p2 hc hfq req req2 hreq hreq2
    have hport : effectivePort p2 target = effectivePort p target := by
      unfold effectivePort
      rw [hc]
    rw [httpRequestForTarget_Host lib p target req hreq,
      httpRequestForTarget_Host lib2 p2 target req2 hreq2, hc, hport]
    exact hostHeaderForTarget_congr target _ _ _ _ hfq
  refine ⟨?_, ?_, hsame, ?_⟩
  · rw [httpRequestForTarget_eq lib p target ip (fun _ => hok), buildRequest_requestedURLs]
    simp [hrf, requestedURLs, bracketed, hcolon, Event.requestURL]
  · intro req hreq
    rw [httpRequestForTarget_Host lib p target req hreq]
    simp [hostHeaderForTarget]
  · intro lib2 p2 ip2 hc hals hok2 hmut
    have hport : effectivePort p2 target = effectivePort p target := by
      unfold effectivePort
      rw [hc]
    have hrf2 : resolveFirst p2 target = true := by
      unfold resolveFirst at hrf ⊢
      rw [hc]
      exact hrf
    have hlabels : (httpRequestForTarget lib2 p2 target).Labels =
        (httpRequestForTarget lib p target).Labels := by
      rw [httpRequestForTarget_Labels_resolved lib p target ip hrf hok,
        httpRequestForTarget_Labels_resolved lib2 p2 target ip2 hrf2 hok2, hals, hport,
        updateLoop_fst_address p.opts.AdditionalLabels 0 target (lib2.ipString ip2)
          (lib.ipString ip) (effectivePort p target) hmut]
    refine ⟨hlabels, hsame lib2 p2 hc ?_⟩
    rw [hlabels]

/-- Witness of C4 (amended): name "b", resolved address "::1", no port: the
request is built, the URL host is "[::1]" and the Host header is "b"; with
the resolved address "::2" the Host header is "b" again, although the
mutator stores the address under the label "dst_ip". -/
theorem ipv6_literal_host_witness :
    (resolveFirst (exampleProbeResolving exampleLoopback [exampleLabel]) exampleTargetBare =
        true ∧
      exampleTargetBare.Resolve 0 (exampleResolver exampleLoopback) =
        Except.ok exampleLoopback ∧
      ':' ∈ (exampleStdlibV6.ipString exampleLoopback).data) ∧
    requestedURLs (httpRequestForTarget exampleStdlibV6
      (exampleProbeResolving exampleLoopback [exampleLabel]) exampleTargetBare).events =
      ["http://[::1]"] ∧
    (httpRequestForTarget exampleStdlibV6
      (exampleProbeResolving exampleLoopback [exampleLabel]) exampleTargetBare).req =
      some { Method := "GET", URL := "http://[::1]", Header := { entries := [] },
             Host := "b", ContentLength := 0, Body := none } ∧
    (httpRequestForTarget exampleStdlibV6
      (exampleProbeResolving exampleLoopback2 [exampleLabel]) exampleTargetBare).req =
      some { Method := "GET", URL := "http://[::2]", Header := { entries := [] },
             Host := "b", ContentLength := 0, Body := none } ∧
    ∀ req req2,
      (httpRequestForTarget exampleStdlibV6
        (exampleProbeResolving exampleLoopback [exampleLabel]) exampleTargetBare).req =
        some req →
      (httpRequestForTarget exampleStdlibV6
        (exampleProbeResolving exampleLoopback2 [exampleLabel]) exampleTargetBare).req =
        some req2 →
      req2.Host = req.Host :=
  ⟨⟨by decide, rfl, by decide⟩,
    (ipv6_literal_host exampleStdlibV6 (exampleProbeResolving exampleLoopback [exampleLabel])
      exampleTargetBare exampleLoopback (by decide) rfl (by decide)).1,
    by decide, by decide,
    (ipv6_literal_host exampleStdlibV6 (exampleProbeResolving exampleLoopback [exampleLabel])
      exampleTargetBare exampleLoopback (by decide) rfl (by decide)).2.2.1 exampleStdlibV6
      (exampleProbeResolving exampleLoopback2 [exampleLabel]) rfl (by decide)⟩

/-- C6: on every run in which resolution does not fail, the port in the URL,
in the Host header and in every call of a label mutator is the configured
port when it is set and not 0, otherwise the target's port; when both are 0
the URL has no port suffix and neither has the Host header derived from the
target. -/
theorem port_precedence (lib : Stdlib) (p : Probe) (target : Endpoint) (ip : IP)
    (hres : resolveFirst p target = true →
      target.Resolve p.opts.IPVersion p.opts.Targets = Except.ok ip) :
    (effectivePort p target =
        match p.c.Port with
        | some v => if v ≠ 0 then v else target.Port
        | none => target.Port) ∧
      requestedURLs (httpRequestForTarget lib p target).events =
        [p.protocol ++ "://" ++
          hostWithPort
            (bracketed (if resolveFirst p target = true then lib.ipString ip
              else urlHostForTarget target))
            (effectivePort p target) ++
          relURLForTarget
            { target with Labels := (httpRequestForTarget lib p target).Labels } p.url] ∧
      (∀ req, (httpRequestForTarget lib p target).req = some req →
        req.Host =
          hostHeaderForTarget
            { target with Labels := (httpRequestForTarget lib p target).Labels }
            ((lastHostValue p.c.Headers).getD "") (effectivePort p target)) ∧
      (mutatorCalls (httpRequestForTarget lib p target).events).map (fun c => c.2.2.2) =
        List.replicate p.opts.AdditionalLabels.length (effectivePort p target) ∧
      (p.c.GetPort = 0 → target.Port = 0 →
        requestedURLs (httpRequestForTarget lib p target).events =
          [p.protocol ++ "://" ++
            bracketed (if resolveFirst p target = true then lib.ipString ip
              else urlHostForTarget target) ++
            relURLForTarget
              { target with Labels := (httpRequestForTarget lib p target).Labels } p.url] ∧
        ∀ req, (httpRequestForTarget lib p target).req = some req →
          (lastHostValue p.c.Headers).getD "" = "" →
          req.Host =
            if mapIndex (httpRequestForTarget lib p target).Labels "fqdn" ≠ "" then
              mapIndex (httpRequestForTarget lib p target).Labels "fqdn"
            else target.Name) := by
  have hurl :
      requestedURLs (httpRequestForTarget lib p target).events =
        [p.protocol ++ "://" ++
          hostWithPort
            (bracketed (if resolveFirst p target = true then lib.ipString ip
              else urlHostForTarget target))
            (effectivePort p target) ++
          relURLForTarget
            { target with Labels := (httpRequestForTarget lib p target).Labels } p.url] := by
    rw [httpRequestForTarget_eq lib p target ip hres, buildRequest_requestedURLs]
    by_cases h : resolveFirst p target = true
    · simp [h, requestedURLs, Event.requestURL]
    · simp [h, requestedURLs]
  refine ⟨effectivePort_eq p target, hurl, httpRequestForTarget_Host lib p target, ?_, ?_⟩
  · rw [httpRequestForTarget_eq lib p target ip hres, buildRequest_mutatorCalls,
      List.map_append, updateLoop_mutatorCalls_port]
    by_cases h : resolveFirst p target = true
    · simp [h, mutatorCalls, Event.updateArgs]
    · simp [h, mutatorCalls]
  · intro hc ht
    have hz : effectivePort p target = 0 := by simp [effectivePort, hc, ht]
    refine ⟨?_, ?_⟩
    · rw [hurl, hz]
      simp [hostWithPort]
    · intro req hreq hov
      rw [httpRequestForTarget_Host lib p target req hreq, hov, hz]
      simp [hostHeaderForTarget, hostWithPort]

/-- Witness of C6: configured port 8443 and target port 8080; the configured
port is in the URL, in the Host header and in the mutator call. -/
theorem port_precedence_witness :
    resolveFirst (exampleProbe (some 8443) none []) exampleTargetFqdn = false ∧
    requestedURLs (httpRequestForTarget exampleStdlib (exampleProbe (some 8443) none [])
      exampleTargetFqdn).events = ["http://a.example.com:8443/health"] ∧
    (mutatorCalls (httpRequestForTarget exampleStdlib (exampleProbe (some 8443) none [])
      exampleTargetFqdn).events).map (fun c => c.2.2.2) = [8443] :=
  ⟨by decide,
    (port_precedence exampleStdlib (exampleProbe (some 8443) none []) exampleTargetFqdn []
      (fun h => absurd h (by decide))).2.1,
    (port_precedence exampleStdlib (exampleProbe (some 8443) none []) exampleTargetFqdn []
      (fun h => absurd h (by decide))).2.2.2.1⟩

/-- C8: resolve-first is the configured value when the configuration sets it
(true or false), and otherwise holds exactly when the target carries an
address; the resolver is called (once) exactly when resolve-first is true;
with an explicit false the resolver is not called, also for a target with an
address, and the URL host is the fqdn label or the name. -/
theorem resolveFirst_mode (lib : Stdlib) (p : Probe) (target : Endpoint) :
    (resolveFirst p target =
        match p.c.ResolveFirst with
        | some b => b
        | none => target.IP.isSome) ∧
      (resolveCalls (httpRequestForTarget lib p target).events =
        if resolveFirst p target = true then [(target, p.opts.IPVersion)] else []) ∧
      (p.c.ResolveFirst = some false →
        resolveCalls (httpRequestForTarget lib p target).events = [] ∧
        requestedURLs (httpRequestForTarget lib p target).events =
          [p.protocol ++ "://" ++
            hostWithPort
              (bracketed (if mapIndex target.Labels "fqdn" ≠ "" then mapIndex target.Labels "fqdn"
                else target.Name))
              (effectivePort p target) ++
            relURLForTarget
              { target with Labels := (httpRequestForTarget lib p target).Labels } p.url]) := by
  have hmode : resolveFirst p target =
      match p.c.ResolveFirst with
      | some b => b
      | none => target.IP.isSome := by
    unfold resolveFirst ProbeConf.GetResolveFirst
    cases p.c.ResolveFirst <;> rfl
  refine ⟨hmode, httpRequestForTarget_resolveCalls lib p target, ?_⟩
  intro hfalse
  have hrf : resolveFirst p target = false := by rw [hmode, hfalse]
  constructor
  · rw [httpRequestForTarget_resolveCalls]
    simp [hrf]
  · rw [httpRequestForTarget_eq lib p target [] (fun h => by simp [hrf] at h),
      buildRequest_requestedURLs]
    simp [hrf, requestedURLs, urlHostForTarget]

/-- Witness of C8: the target "b" carries the address `::1`; with
resolve-first unset the resolver is called, with an explicit false it is not
and the URL host is the name. -/
theorem resolveFirst_mode_witness :
    resolveCalls (httpRequestForTarget exampleStdlib (exampleProbe none none [])
      exampleTargetB).events = [(exampleTargetB, 0)] ∧
    (exampleProbe none (some false) []).c.ResolveFirst = some false ∧
    resolveCalls (httpRequestForTarget exampleStdlib (exampleProbe none (some false) [])
      exampleTargetB).events = [] ∧
    requestedURLs (httpRequestForTarget exampleStdlib (exampleProbe none (some false) [])
      exampleTargetB).events = ["http://b"] :=
  ⟨(resolveFirst_mode exampleStdlib (exampleProbe none none []) exampleTargetB).2.1,
    rfl,
    (resolveFirst_mode exampleStdlib (exampleProbe none (some false) []) exampleTargetB).2.2 rfl⟩

/-- C9: when resolve-first is true and the resolver returns an error, the
builder returns no request and stops: it calls the resolver and the logger
and nothing else (no label mutator, no request construction), and the
target's labels are as before. -/
theorem resolve_failure_stops (lib : Stdlib) (p : Probe) (target : Endpoint) (err : String)
    (hrf : resolveFirst p target = true)
    (herr : target.Resolve p.opts.IPVersion p.opts.Targets = Except.error err) :
    (httpRequestForTarget lib p target).req = none ∧
      mutatorCalls (httpRequestForTarget lib p target).events = [] ∧
      requestedURLs (httpRequestForTarget lib p target).events = [] ∧
      (httpRequestForTarget lib p target).events =
        [Event.Resolve target p.opts.IPVersion,
         Event.Error ["target: ", target.Name, ", resolve error: ", err]] ∧
      (httpRequestForTarget lib p target).Labels = target.Labels := by
  unfold httpRequestForTarget
  simp [hrf, herr, mutatorCalls, requestedURLs, Event.updateArgs, Event.requestURL]

/-- Witness of C9: resolve-first is set for the target "a", which does not
resolve; the mutator of the probe is not called. -/
theorem resolve_failure_stops_witness :
    (resolveFirst (exampleProbe none (some true) []) exampleTargetA = true ∧
      exampleTargetA.Resolve 0 exampleTargets = Except.error "no address") ∧
    (httpRequestForTarget exampleStdlib (exampleProbe none (some true) [])
      exampleTargetA).req = none ∧
    mutatorCalls (httpRequestForTarget exampleStdlib (exampleProbe none (some true) [])
      exampleTargetA).events = [] ∧
    requestedURLs (httpRequestForTarget exampleStdlib (exampleProbe none (some true) [])
      exampleTargetA).events = [] :=
  ⟨⟨by decide, rfl⟩,
    (resolve_failure_stops exampleStdlib (exampleProbe none (some true) []) exampleTargetA
      "no address" (by decide) rfl).1,
    (resolve_failure_stops exampleStdlib (exampleProbe none (some true) []) exampleTargetA
      "no address" (by decide) rfl).2.1,
    (resolve_failure_stops exampleStdlib (exampleProbe none (some true) []) exampleTargetA
      "no address" (by decide) rfl).2.2.1⟩

/-! ## The body reader is stateless -/

/-- C11: a read leaves the body as it is, and a second read, into any
buffer, returns the count and the bytes it returns without the first read:
it starts at byte zero of the body again.  Reading a second time into the
buffer of the first read changes nothing. -/
theorem requestBody_Read_stateless (rb : requestBody) (p1 p2 : List Byte) :
    (rb.Read p1).rb = rb ∧
      (rb.Read p1).rb.Read p2 = rb.Read p2 ∧
      ((rb.Read p1).rb.Read p2).n = min p2.length rb.b.length ∧
      ((rb.Read p1).rb.Read p2).p.take (min p2.length rb.b.length) =
        rb.b.take (min p2.length rb.b.length) ∧
      (rb.Read p1).rb.Read (rb.Read p1).p = rb.Read p1 := by
  have hlen : (List.take (min p2.length rb.b.length) rb.b).length =
      min p2.length rb.b.length := by
    rw [List.length_take]
    omega
  refine ⟨rfl, rfl, ?_, ?_, ?_⟩
  · simp [requestBody.Read, copy_snd]
  · simp only [requestBody.Read, copy_fst]
    rw [List.take_append_of_le_length (by omega), List.take_of_length_le (by omega)]
  · simp only [requestBody.Read, copy_copy]

/-! ## Headers and body of the built request -/

/-- Counterexample to C12 as stated: the header list is the single entry
("host", "x"); the request is built and its header mapping has an entry named
"Host". -/
theorem header_named_host_counterexample :
    ∃ req,
      (httpRequestForTarget exampleStdlib
        (exampleProbe none none [{ Name := "host", Value := "x" }]) exampleTargetA).req = some req ∧
      req.Header.index "Host" = some ["x"] := by
  refine ⟨{ Method := "GET", URL := "http://a", Header := { entries := [("Host", ["x"])] },
            Host := "a", ContentLength := 0, Body := none }, ?_, ?_⟩ <;> decide

/-- C12 (amended): when every configured header whose name has the canonical
form "Host" is named "Host" itself, the header mapping of a built request has
no entry named "Host". -/
theorem no_Host_in_headers (lib : Stdlib) (p : Probe) (target : Endpoint) (req : Request)
    (hcanon : ∀ h ∈ p.c.Headers, CanonicalMIMEHeaderKey h.Name = "Host" → h.Name = "Host")
    (hreq : (httpRequestForTarget lib p target).req = some req) :
    req.Header.index "Host" = none := by
  have hH := (httpRequestForTarget_fields lib p target req hreq).2.2.2.1
  rw [hH, headerLoop_snd]
  have hnil : List.filter
      (fun h => decide (h.Name ≠ "Host" ∧ CanonicalMIMEHeaderKey h.Name = "Host"))
      p.c.Headers = [] := by
    rw [List.filter_eq_nil_iff]
    intro h hmem
    have := hcanon h hmem
    simp only [decide_eq_true_eq, not_and]
    intro hne hc
    exact hne (this hc)
  unfold lastValueUnder
  rw [hnil]
  rfl

/-- Witness of C12 (amended): the headers "Host" and "X-Probe" are
configured; "Host" is not in the header mapping, "X-Probe" is. -/
theorem no_Host_in_headers_witness :
    ∃ req,
      (httpRequestForTarget exampleStdlib
        (exampleProbe none none
          [{ Name := "Host", Value := "probe.example" }, { Name := "X-Probe", Value := "1" }])
        exampleTargetA).req = some req ∧
      req.Header.index "X-Probe" = some ["1"] ∧
      req.Header.index "Host" = none :=
  ⟨{ Method := "GET", URL := "http://a", Header := { entries := [("X-Probe", ["1"])] },
     Host := "probe.example", ContentLength := 0, Body := none },
    by decide, by decide,
    no_Host_in_headers exampleStdlib
      (exampleProbe none none
        [{ Name := "Host", Value := "probe.example" }, { Name := "X-Probe", Value := "1" }])
      exampleTargetA _ (by decide) (by decide)⟩

/-- Counterexample to C13 as stated: the headers ("X-Probe", "1") and
("x-probe", "2") are configured, in this order.  The mapping has no entry
under the name "x-probe", and under "X-Probe" it holds "2", which is not the
value of the last entry named "X-Probe". -/
theorem header_name_as_given_counterexample :
    ∃ req,
      (httpRequestForTarget exampleStdlib
        (exampleProbe none none
          [{ Name := "X-Probe", Value := "1" }, { Name := "x-probe", Value := "2" }])
        exampleTargetA).req = some req ∧
      req.Header.index "x-probe" = none ∧
      req.Header.index "X-Probe" = some ["2"] := by
  refine ⟨{ Method := "GET", URL := "http://a", Header := { entries := [("X-Probe", ["2"])] },
            Host := "a", ContentLength := 0, Body := none }, ?_, ?_, ?_⟩ <;> decide

/-- C13 (amended): in a built request the header mapping holds, under every
key, the value of the last configured header, among those not named "Host",
whose name has that key as its canonical form, and nothing under a key that
is the canonical form of no such header; so every configured header not named
"Host" appears under the canonical form of its name, with the value of the
last header of the same canonical name. -/
theorem headers_under_canonical_name (lib : Stdlib) (p : Probe) (target : Endpoint)
    (req : Request) (hreq : (httpRequestForTarget lib p target).req = some req) :
    (∀ key, req.Header.index key = (lastValueUnder p.c.Headers key).map (fun v => [v])) ∧
      ∀ h ∈ p.c.Headers, h.Name ≠ "Host" →
        ∃ v, lastValueUnder p.c.Headers (CanonicalMIMEHeaderKey h.Name) = some v ∧
          req.Header.index (CanonicalMIMEHeaderKey h.Name) = some [v] := by
  have hH := (httpRequestForTarget_fields lib p target req hreq).2.2.2.1
  have hall : ∀ key,
      req.Header.index key = (lastValueUnder p.c.Headers key).map (fun v => [v]) := by
    intro key
    rw [hH, headerLoop_snd]
    cases lastValueUnder p.c.Headers key <;> rfl
  refine ⟨hall, ?_⟩
  intro h hmem hne
  have hin : h ∈ List.filter
      (fun x => decide (x.Name ≠ "Host" ∧
        CanonicalMIMEHeaderKey x.Name = CanonicalMIMEHeaderKey h.Name)) p.c.Headers := by
    rw [List.mem_filter]
    exact ⟨hmem, by simp [hne]⟩
  have hnil := List.ne_nil_of_mem hin
  have hlast : lastValueUnder p.c.Headers (CanonicalMIMEHeaderKey h.Name) =
      some ((List.filter
        (fun x => decide (x.Name ≠ "Host" ∧
          CanonicalMIMEHeaderKey x.Name = CanonicalMIMEHeaderKey h.Name))
        p.c.Headers).getLast hnil).Value := by
    unfold lastValueUnder
    rw [List.getLast?_eq_getLast _ hnil]
    rfl
  refine ⟨_, hlast, ?_⟩
  rw [hall, hlast]
  rfl

/-- Witness of C13 (amended): of the headers ("X-Probe", "1") and
("x-probe", "2") the second one is the last of canonical name "X-Probe". -/
theorem headers_under_canonical_name_witness :
    ∃ req,
      (httpRequestForTarget exampleStdlib
        (exampleProbe none none
          [{ Name := "X-Probe", Value := "1" }, { Name := "x-probe", Value := "2" }])
        exampleTargetA).req = some req ∧
      lastValueUnder [{ Name := "X-Probe", Value := "1" }, { Name := "x-probe", Value := "2" }]
        "X-Probe" = some "2" ∧
      ∀ key, req.Header.index key =
        (lastValueUnder
          (exampleProbe none none
            [{ Name := "X-Probe", Value := "1" }, { Name := "x-probe", Value := "2" }]).c.Headers
          key).map (fun v => [v]) :=
  ⟨{ Method := "GET", URL := "http://a", Header := { entries := [("X-Probe", ["2"])] },
     Host := "a", ContentLength := 0, Body := none },
    by decide, by decide,
    (headers_under_canonical_name exampleStdlib
      (exampleProbe none none
        [{ Name := "X-Probe", Value := "1" }, { Name := "x-probe", Value := "2" }])
      exampleTargetA _ (by decide)).1⟩

/-- C14: in a built request the content length is the length of the
configured body; a body reader is attached exactly when the configured body
is not empty (an empty body gives no reader and content length 0); an
attached reader holds exactly the configured body and reads from it. -/
theorem body_and_content_length (lib : Stdlib) (p : Probe) (target : Endpoint)
    (req : Request) (hreq : (httpRequestForTarget lib p target).req = some req) :
    req.ContentLength = (p.requestBody.length : Int) ∧
      (req.Body.isSome = true ↔ p.requestBody ≠ []) ∧
      (p.requestBody = [] → req.Body = none ∧ req.ContentLength = 0) ∧
      ∀ rb, req.Body = some rb →
        rb.b = p.requestBody ∧
          ∀ buf, rb.Read buf = requestBody.Read { b := p.requestBody } buf := by
  obtain ⟨_, _, _, _, hlen, hbody⟩ := httpRequestForTarget_fields lib p target req hreq
  refine ⟨hlen, ?_, ?_, ?_⟩
  · rw [hbody]
    cases hb : p.requestBody <;> simp
  · intro hb
    rw [hbody, hlen, hb]
    simp
  · intro rb hrb
    rw [hbody] at hrb
    split at hrb
    · simp only [Option.some.injEq] at hrb
      rw [← hrb]
      exact ⟨rfl, fun _ => rfl⟩
    · simp at hrb

/-- Witness of C14: the body is the three bytes 1, 2, 3. -/
theorem body_and_content_length_witness :
    ∃ req,
      (httpRequestForTarget exampleStdlib (exampleProbeWith [] [1, 2, 3] none none [])
        exampleTargetA).req = some req ∧
      req.ContentLength = 3 ∧ req.Body = some { b := [1, 2, 3] } :=
  ⟨{ Method := "GET", URL := "http://a", Header := { entries := [] }, Host := "a",
     ContentLength := 3, Body := some { b := [1, 2, 3] } },
    by decide,
    (body_and_content_length exampleStdlib (exampleProbeWith [] [1, 2, 3] none none [])
      exampleTargetA _ (by decide)).1,
    rfl⟩

/-! ## The example of the specification, failure, mutators, order -/

/-- C15: for the target "a.com" with fqdn label "a.example.com", port 0 and
no address, and the configuration with protocol "https", port 8443, no path
override, resolve-first not set and no Host entry, on a run that leaves the
target's labels as they are, the URL is "https://a.example.com:8443", the
request is built when request construction accepts method and URL, and a
built request has this URL and the Host header "a.example.com:8443". -/
theorem spec_example_request (lib : Stdlib) (opts : Options) (method : String)
    (headers : List ProbeConf_Header) (body : List Byte)
    (hhost : lastHostValue headers = none)
    (hlabels : (httpRequestForTarget lib (specProbe opts method headers body) specTarget).Labels =
      specTarget.Labels) :
    requestedURLs (httpRequestForTarget lib (specProbe opts method headers body)
        specTarget).events = ["https://a.example.com:8443"] ∧
      (lib.requestError method "https://a.example.com:8443" = none →
        ∃ req, (httpRequestForTarget lib (specProbe opts method headers body) specTarget).req =
          some req) ∧
      ∀ req, (httpRequestForTarget lib (specProbe opts method headers body) specTarget).req =
          some req →
        req.URL = "https://a.example.com:8443" ∧ req.Host = "a.example.com:8443" := by
  have hrf : resolveFirst (specProbe opts method headers body) specTarget = false := rfl
  have hurl : requestedURLs (httpRequestForTarget lib (specProbe opts method headers body)
      specTarget).events = ["https://a.example.com:8443"] := by
    rw [httpRequestForTarget_named lib _ specTarget hrf, hlabels]
    rfl
  refine ⟨hurl, ?_, ?_⟩
  · intro hacc
    have h := httpRequestForTarget_req lib _ specTarget _ hurl
    have hacc2 : lib.requestError (specProbe opts method headers body).method
        "https://a.example.com:8443" = none := hacc
    rw [hacc2] at h
    exact ⟨_, h⟩
  · intro req hreq
    have hf := (httpRequestForTarget_fields lib _ specTarget req hreq).1
    rw [hurl] at hf
    refine ⟨(List.cons.inj hf).1.symm, ?_⟩
    rw [httpRequestForTarget_Host lib _ specTarget req hreq, hlabels]
    have hov : lastHostValue (specProbe opts method headers body).c.Headers = none := hhost
    rw [hov]
    rfl

/-- Witness of C15: method "GET", a mutator that leaves the labels as they
are, one header that is not a Host entry. -/
theorem spec_example_request_witness :
    (lastHostValue [{ Name := "X-Probe", Value := "1" }] = none ∧
      (httpRequestForTarget exampleStdlib
        (specProbe
          { IPVersion := 0, Targets := exampleTargets, AdditionalLabels := [exampleReadOnlyLabel] }
          "GET" [{ Name := "X-Probe", Value := "1" }] [])
        specTarget).Labels = specTarget.Labels) ∧
    (httpRequestForTarget exampleStdlib
      (specProbe
        { IPVersion := 0, Targets := exampleTargets, AdditionalLabels := [exampleReadOnlyLabel] }
        "GET" [{ Name := "X-Probe", Value := "1" }] [])
      specTarget).req =
      some { Method := "GET", URL := "https://a.example.com:8443",
             Header := { entries := [("X-Probe", ["1"])] }, Host := "a.example.com:8443",
             ContentLength := 0, Body := none } ∧
    requestedURLs (httpRequestForTarget exampleStdlib
      (specProbe
        { IPVersion := 0, Targets := exampleTargets, AdditionalLabels := [exampleReadOnlyLabel] }
        "GET" [{ Name := "X-Probe", Value := "1" }] [])
      specTarget).events = ["https://a.example.com:8443"] :=
  ⟨⟨by decide, rfl⟩, by decide,
    (spec_example_request exampleStdlib
      { IPVersion := 0, Targets := exampleTargets, AdditionalLabels := [exampleReadOnlyLabel] }
      "GET" [{ Name := "X-Probe", Value := "1" }] [] (by decide) rfl).1⟩

/-- C16: the builder returns no request exactly when resolve-first is true
and resolution fails, or request construction rejects the method or the URL
handed to it; in every other case it returns the request with every field
set.  With resolve-first false, a URL is handed to request construction and
the request is built whenever method and URL are accepted. -/
theorem build_failure_iff (lib : Stdlib) (p : Probe) (target : Endpoint) :
    ((httpRequestForTarget lib p target).req = none ↔
        (resolveFirst p target = true ∧
          ∃ err, target.Resolve p.opts.IPVersion p.opts.Targets = Except.error err) ∨
        ∃ url, requestedURLs (httpRequestForTarget lib p target).events = [url] ∧
          lib.requestError p.method url ≠ none) ∧
      (∀ url, requestedURLs (httpRequestForTarget lib p target).events = [url] →
        lib.requestError p.method url = none →
        (httpRequestForTarget lib p target).req =
          some
            { Method := if p.method = "" then "GET" else p.method
              URL := url
              Header := (headerLoop p.c.Headers "" { entries := [] }).2
              Host :=
                hostHeaderForTarget
                  { target with Labels := (httpRequestForTarget lib p target).Labels }
                  ((lastHostValue p.c.Headers).getD "") (effectivePort p target)
              ContentLength := (p.requestBody.length : Int)
              Body :=
                if p.requestBody.length > 0 then some { b := p.requestBody } else none }) ∧
      (resolveFirst p target = false →
        ∃ url, requestedURLs (httpRequestForTarget lib p target).events = [url] ∧
          (lib.requestError p.method url = none →
            ∃ req, (httpRequestForTarget lib p target).req = some req)) := by
  refine ⟨?_, ?_, ?_⟩
  · rcases httpRequestForTarget_urls lib p target with ⟨hrf, herr, _, hnone⟩ | ⟨hok, url, hurl⟩
    · exact ⟨fun _ => Or.inl ⟨hrf, herr⟩, fun _ => hnone⟩
    · have h := httpRequestForTarget_req lib p target url hurl
      cases hE : lib.requestError p.method url with
      | some e =>
        rw [hE] at h
        refine ⟨fun _ => Or.inr ⟨url, hurl, ?_⟩, fun _ => h⟩
        rw [hE]
        simp
      | none =>
        rw [hE] at h
        constructor
        · intro hnone
          rw [hnone] at h
          simp at h
        · intro hor
          rcases hor with ⟨hrf, err, herr⟩ | ⟨url2, hurl2, hrej⟩
          · obtain ⟨ip, hip⟩ := hok hrf
            rw [hip] at herr
            simp at herr
          · rw [hurl] at hurl2
            have hu := (List.cons.inj hurl2).1
            rw [← hu, hE] at hrej
            exact absurd rfl hrej
  · intro url hurl hacc
    have h := httpRequestForTarget_req lib p target url hurl
    rw [hacc] at h
    exact h
  · intro hrf
    rcases httpRequestForTarget_urls lib p target with ⟨hrf2, _⟩ | ⟨_, url, hurl⟩
    · rw [hrf] at hrf2
      simp at hrf2
    · refine ⟨url, hurl, ?_⟩
      intro hacc
      have h := httpRequestForTarget_req lib p target url hurl
      rw [hacc] at h
      exact ⟨_, h⟩

/-- Witness of C16: with resolve-first false the target "a" gives the URL
"http://a", which the example library accepts, and the request is built. -/
theorem build_failure_iff_witness :
    resolveFirst (exampleProbe none (some false) []) exampleTargetA = false ∧
    exampleStdlib.requestError "GET" "http://a" = none ∧
    ∃ url, requestedURLs (httpRequestForTarget exampleStdlib
        (exampleProbe none (some false) []) exampleTargetA).events = [url] ∧
      (exampleStdlib.requestError (exampleProbe none (some false) []).method url = none →
        ∃ req, (httpRequestForTarget exampleStdlib (exampleProbe none (some false) [])
          exampleTargetA).req = some req) :=
  ⟨by decide, rfl,
    (build_failure_iff exampleStdlib (exampleProbe none (some false) []) exampleTargetA).2.2
      (by decide)⟩

/-- C17: on every run in which resolution does not fail, the label mutators
are called once each, in configuration order (the calls are those of the
mutators at positions 0, 1, ... in this order), each with the target (its
name, port and address; the first call with the target as passed in), with
the resolved address string when resolve-first is true and the empty string
when it is false, also when the target carries an address, and with the
effective port. -/
theorem mutators_called_in_order (lib : Stdlib) (p : Probe) (target : Endpoint) (ip : IP)
    (hres : resolveFirst p target = true →
      target.Resolve p.opts.IPVersion p.opts.Targets = Except.ok ip) :
    (mutatorCalls (httpRequestForTarget lib p target).events).map (fun c => c.1) =
        List.range p.opts.AdditionalLabels.length ∧
      (mutatorCalls (httpRequestForTarget lib p target).events).map (fun c => c.2.2.1) =
        List.replicate p.opts.AdditionalLabels.length
          (if resolveFirst p target = true then lib.ipString ip else "") ∧
      (mutatorCalls (httpRequestForTarget lib p target).events).map (fun c => c.2.2.2) =
        List.replicate p.opts.AdditionalLabels.length (effectivePort p target) ∧
      (∀ c ∈ mutatorCalls (httpRequestForTarget lib p target).events,
        c.2.1.Name = target.Name ∧ c.2.1.Port = target.Port ∧ c.2.1.IP = target.IP) ∧
      (mutatorCalls (httpRequestForTarget lib p target).events).head?.map (fun c => c.2.1) =
        if p.opts.AdditionalLabels.isEmpty then none else some target := by
  rw [httpRequestForTarget_mutatorCalls lib p target ip hres]
  refine ⟨?_, updateLoop_mutatorCalls_address _ _ _ _ _, updateLoop_mutatorCalls_port _ _ _ _ _,
    updateLoop_mutatorCalls_target _ _ _ _ _, ?_⟩
  · rw [updateLoop_mutatorCalls_index, List.range_eq_range']
  · rw [updateLoop_mutatorCalls_head]
    cases p.opts.AdditionalLabels <;> rfl

/-- Witness of C17: the target "b" carries the address `::1` and
resolve-first is set to false; the two mutators are called in order, with
the empty string as address. -/
theorem mutators_called_in_order_witness :
    resolveFirst (exampleProbeWith [exampleLabel, exampleReadOnlyLabel] [] (some 8443)
      (some false) []) exampleTargetB = false ∧
    (mutatorCalls (httpRequestForTarget exampleStdlib
      (exampleProbeWith [exampleLabel, exampleReadOnlyLabel] [] (some 8443) (some false) [])
      exampleTargetB).events).map (fun c => c.1) = [0, 1] ∧
    (mutatorCalls (httpRequestForTarget exampleStdlib
      (exampleProbeWith [exampleLabel, exampleReadOnlyLabel] [] (some 8443) (some false) [])
      exampleTargetB).events).map (fun c => c.2.2.1) = ["", ""] ∧
    (mutatorCalls (httpRequestForTarget exampleStdlib
      (exampleProbeWith [exampleLabel, exampleReadOnlyLabel] [] (some 8443) (some false) [])
      exampleTargetB).events).map (fun c => c.2.2.2) = [8443, 8443] :=
  ⟨by decide,
    (mutators_called_in_order exampleStdlib
      (exampleProbeWith [exampleLabel, exampleReadOnlyLabel] [] (some 8443) (some false) [])
      exampleTargetB [] (fun h => absurd h (by decide))).1,
    (mutators_called_in_order exampleStdlib
      (exampleProbeWith [exampleLabel, exampleReadOnlyLabel] [] (some 8443) (some false) [])
      exampleTargetB [] (fun h => absurd h (by decide))).2.1,
    (mutators_called_in_order exampleStdlib
      (exampleProbeWith [exampleLabel, exampleReadOnlyLabel] [] (some 8443) (some false) [])
      exampleTargetB [] (fun h => absurd h (by decide))).2.2.1⟩

/-- Counterexample to C18 as stated: resolve-first is false, the target "a"
has no labels and the one mutator sets the fqdn label to "x.example".  After
the mutators the fqdn label is "x.example" and the Host header is computed
from it, but the URL is "http://a": its host is not the fqdn label of the
label store after the mutators. -/
theorem url_host_after_mutators_counterexample :
    resolveFirst (exampleProbeWith [exampleFqdnLabel] [] none none []) exampleTargetA = false ∧
    mapIndex (httpRequestForTarget exampleStdlib
      (exampleProbeWith [exampleFqdnLabel] [] none none []) exampleTargetA).Labels "fqdn" =
      "x.example" ∧
    (httpRequestForTarget exampleStdlib
      (exampleProbeWith [exampleFqdnLabel] [] none none []) exampleTargetA).req =
      some { Method := "GET", URL := "http://a", Header := { entries := [] },
             Host := "x.example", ContentLength := 0, Body := none } ∧
    requestedURLs (httpRequestForTarget exampleStdlib
      (exampleProbeWith [exampleFqdnLabel] [] none none []) exampleTargetA).events =
      ["http://a"] ∧
    requestedURLs (httpRequestForTarget exampleStdlib
      (exampleProbeWith [exampleFqdnLabel] [] none none []) exampleTargetA).events ≠
      ["http" ++ "://" ++
        hostWithPort
          (bracketed (urlHostForTarget
            { exampleTargetA with
              Labels := (httpRequestForTarget exampleStdlib
                (exampleProbeWith [exampleFqdnLabel] [] none none []) exampleTargetA).Labels }))
          0 ++
        ""] := by
  refine ⟨?_, ?_, ?_, ?_, ?_⟩ <;> decide

/-- C18 (amended): with resolve-first false, all calls of label mutators come
before the request construction, and the path and the Host header are
computed from the label store as the mutators leave it; the URL host is the
fqdn label (else the name) of the label store as it stands before the
mutators run, which is the store after the mutators whenever they leave the
fqdn label as it is. -/
theorem url_host_before_mutators (lib : Stdlib) (p : Probe) (target : Endpoint)
    (hrf : resolveFirst p target = false) :
    (∃ calls tail,
        (httpRequestForTarget lib p target).events = calls ++ tail ∧
        requestedURLs calls = [] ∧ mutatorCalls tail = [] ∧
        (mutatorCalls calls).length = p.opts.AdditionalLabels.length) ∧
      requestedURLs (httpRequestForTarget lib p target).events =
        [p.protocol ++ "://" ++
          hostWithPort
            (bracketed (if mapIndex target.Labels "fqdn" ≠ "" then mapIndex target.Labels "fqdn"
              else target.Name))
            (effectivePort p target) ++
          relURLForTarget
            { target with Labels := (httpRequestForTarget lib p target).Labels } p.url] ∧
      (∀ req, (httpRequestForTarget lib p target).req = some req →
        req.Host =
          hostHeaderForTarget
            { target with Labels := (httpRequestForTarget lib p target).Labels }
            ((lastHostValue p.c.Headers).getD "") (effectivePort p target)) ∧
      (mapIndex (httpRequestForTarget lib p target).Labels "fqdn" =
          mapIndex target.Labels "fqdn" →
        requestedURLs (httpRequestForTarget lib p target).events =
          [p.protocol ++ "://" ++
            hostWithPort
              (bracketed (urlHostForTarget
                { target with Labels := (httpRequestForTarget lib p target).Labels }))
              (effectivePort p target) ++
            relURLForTarget
              { target with Labels := (httpRequestForTarget lib p target).Labels } p.url]) := by
  have hurl := httpRequestForTarget_named lib p target hrf
  refine ⟨?_, ?_, httpRequestForTarget_Host lib p target, ?_⟩
  · obtain ⟨tail, hev, hmut, _⟩ := httpRequestForTarget_named_order lib p target hrf
    refine ⟨_, tail, hev, updateLoop_requestedURLs _ _ _ _ _, hmut, ?_⟩
    have hidx := updateLoop_mutatorCalls_index p.opts.AdditionalLabels 0 target ""
      (effectivePort p target)
    have hlen := congrArg List.length hidx
    simpa using hlen
  · rw [hurl]
    simp [urlHostForTarget]
  · intro hsame
    rw [hurl]
    simp [urlHostForTarget, hsame]

/-- Witness of C18 (amended): the mutator sets the fqdn label to "x.example";
the URL host is the name "a", the Host header is "x.example". -/
theorem url_host_before_mutators_witness :
    resolveFirst (exampleProbeWith [exampleFqdnLabel] [] none none []) exampleTargetA = false ∧
    requestedURLs (httpRequestForTarget exampleStdlib
      (exampleProbeWith [exampleFqdnLabel] [] none none []) exampleTargetA).events =
      ["http://a"] ∧
    ∀ req, (httpRequestForTarget exampleStdlib
      (exampleProbeWith [exampleFqdnLabel] [] none none []) exampleTargetA).req = some req →
      req.Host = "x.example" :=
  ⟨by decide,
    (url_host_before_mutators exampleStdlib
      (exampleProbeWith [exampleFqdnLabel] [] none none []) exampleTargetA (by decide)).2.1,
    (url_host_before_mutators exampleStdlib
      (exampleProbeWith [exampleFqdnLabel] [] none none []) exampleTargetA (by decide)).2.2.1⟩

/-- C19: when resolve-first is false, there is no non-empty Host override,
the run leaves the target's labels as they are and the chosen host (the fqdn
label if it is non-empty, else the name) contains no colon, the URL handed to
request construction, and the URL of the built request, is protocol, "://",
the Host header of the request and the path. -/
theorem url_and_host_agree (lib : Stdlib) (p : Probe) (target : Endpoint) (req : Request)
    (hrf : resolveFirst p target = false)
    (hov : (lastHostValue p.c.Headers).getD "" = "")
    (hlabels : (httpRequestForTarget lib p target).Labels = target.Labels)
    (hcolon : ':' ∉
      (if mapIndex target.Labels "fqdn" ≠ "" then mapIndex target.Labels "fqdn"
       else target.Name).data)
    (hreq : (httpRequestForTarget lib p target).req = some req) :
    requestedURLs (httpRequestForTarget lib p target).events =
        [p.protocol ++ "://" ++ req.Host ++ relURLForTarget target p.url] ∧
      req.URL = p.protocol ++ "://" ++ req.Host ++ relURLForTarget target p.url := by
  have hurl := httpRequestForTarget_named lib p target hrf
  have hhost := httpRequestForTarget_Host lib p target req hreq
  have hf := (httpRequestForTarget_fields lib p target req hreq).1
  rw [hlabels] at hurl hhost
  have hc : ':' ∉ (urlHostForTarget target).data := by
    simpa [urlHostForTarget] using hcolon
  have hH : req.Host = hostWithPort (urlHostForTarget target) (effectivePort p target) := by
    rw [hhost, hov]
    unfold hostHeaderForTarget urlHostForTarget
    by_cases hq : mapIndex target.Labels "fqdn" = "" <;> simp [hq]
  have hU : requestedURLs (httpRequestForTarget lib p target).events =
      [p.protocol ++ "://" ++ req.Host ++ relURLForTarget target p.url] := by
    rw [hurl, hH]
    simp [bracketed, hc]
  refine ⟨hU, ?_⟩
  rw [hU] at hf
  exact (List.cons.inj hf).1.symm

/-- Witness of C19: the target "a.com" with fqdn label "a.example.com" and
path label "/health", configured port 8443, a mutator that leaves the labels
as they are. -/
theorem url_and_host_agree_witness :
    (resolveFirst (exampleProbeWith [exampleReadOnlyLabel] [] (some 8443) none [])
        exampleTargetFqdn = false ∧
      (httpRequestForTarget exampleStdlib
        (exampleProbeWith [exampleReadOnlyLabel] [] (some 8443) none [])
        exampleTargetFqdn).Labels = exampleTargetFqdn.Labels ∧
      (httpRequestForTarget exampleStdlib
        (exampleProbeWith [exampleReadOnlyLabel] [] (some 8443) none [])
        exampleTargetFqdn).req =
        some { Method := "GET", URL := "http://a.example.com:8443/health",
               Header := { entries := [] }, Host := "a.example.com:8443",
               ContentLength := 0, Body := none }) ∧
    requestedURLs (httpRequestForTarget exampleStdlib
      (exampleProbeWith [exampleReadOnlyLabel] [] (some 8443) none [])
      exampleTargetFqdn).events =
      ["http" ++ "://" ++ "a.example.com:8443" ++ "/health"] :=
  ⟨⟨by decide, by decide, by decide⟩,
    (url_and_host_agree exampleStdlib
      (exampleProbeWith [exampleReadOnlyLabel] [] (some 8443) none []) exampleTargetFqdn
      { Method := "GET", URL := "http://a.example.com:8443/health",
        Header := { entries := [] }, Host := "a.example.com:8443",
        ContentLength := 0, Body := none }
      (by decide) (by decide) (by decide) (by decide) (by decide)).1⟩

end Cloudprober
